import Mathlib

/-!
Shallow embedding of the "Rinvo's Blendshape Transfer" Blender add-on
(single source file `__init__.py`) and proofs about its specification.

The embedding models the Blender scene state touched by the add-on:
objects (identified by an id, carrying shape keys, modifiers, vertex
groups, a selection flag and the `bs_saved_data` custom-property blob),
the scene-level properties registered by the add-on (`bs_source`,
`bs_target`, `bs_shape_keys`, `bs_override_existing`, `bs_key_suffix`,
`bs_use_subdivision`, `bs_use_displace`) and the active object.

Python/Blender semantics modelled explicitly:
  * a Python `AttributeError` (attribute access on `None`) is modelled as
    a `false` success flag returned alongside the state reached at the
    moment the exception is raised (earlier in-place mutations persist);
  * assigning `sync_value` on a `BlendshapeItem` clamps the value to the
    declared property range [0,1] and fires the `update_sync_value`
    callback, exactly as a `FloatProperty(min=0.0, max=1.0, update=...)`
    does;
  * Blender mesh geometry (vertices/edges/faces) is not represented, so
    purely geometric operations (`ensure_surface_deform_compatibility`,
    the surface-deform bind) are identities on the modelled state;
  * scalar shape-key values and sync values are rationals.
-/

namespace RBT

/-- One shape key (key block): a name and its scalar activation value. -/
structure ShapeKey where
  name : String
  value : Rat
  deriving Repr, DecidableEq, Inhabited

/-- A Blender modifier, reduced to its name and type string. -/
structure Modifier where
  name : String
  mtype : String
  deriving Repr, DecidableEq, Inhabited

/-- One entry of the per-key dictionary saved into `target["bs_saved_data"]`. -/
structure SavedEntry where
  select : Bool
  target_key_name : String
  source_key_name : String
  sync_value : Rat
  deriving Repr, DecidableEq, Inhabited

/-- A Python dict keyed by shape-key name, as an association list. -/
abbrev Blob := List (String × SavedEntry)

/-- A scene object: id, optional shape-key block list (`None` when the mesh
has no shape keys), modifiers, vertex groups, selection flag, active shape
key index, and the optional `bs_saved_data` custom property. -/
structure Obj where
  id : Nat
  shape_keys : Option (List ShapeKey)
  modifiers : List Modifier
  vertex_groups : List String
  selected : Bool
  active_shape_key_index : Int
  blob : Option Blob
  deriving Repr, DecidableEq, Inhabited

/-- One entry of the scene's `bs_shape_keys` collection (`BlendshapeItem`). -/
structure BlendshapeItem where
  name : String
  select : Bool
  sync_value : Rat
  target_key_name : String
  source_key_name : String
  deriving Repr, DecidableEq, Inhabited

/-- The modelled scene state. -/
structure Scene where
  objects : List Obj
  next_id : Nat
  active : Option Nat
  bs_source : Option Nat
  bs_target : Option Nat
  bs_shape_keys : List BlendshapeItem
  bs_override_existing : Bool
  bs_key_suffix : String
  bs_use_subdivision : Bool
  bs_use_displace : Bool
  deriving Repr, DecidableEq, Inhabited

/-- Dereference an object pointer in the scene. -/
def getObj (s : Scene) (i : Nat) : Option Obj :=
  s.objects.find? (fun o => o.id == i)

/-- In-place mutation of the object(s) with the given id. -/
def modifyObj (s : Scene) (i : Nat) (f : Obj → Obj) : Scene :=
  { s with objects := s.objects.map (fun o => if o.id == i then f o else o) }

/-- The shape-key block list of the object with id `i`, when it exists. -/
def getObjKeys (s : Scene) (i : Nat) : Option (List ShapeKey) :=
  (getObj s i).bind (fun o => o.shape_keys)

/-- The modifier list of the object with id `i`, when the object exists. -/
def modsOf (s : Scene) (i : Nat) : Option (List Modifier) :=
  (getObj s i).map (fun o => o.modifiers)

/-- `key_blocks.get(n)` / `key_blocks[n]`: first key block with that name. -/
def keyLookup (ks : List ShapeKey) (n : String) : Option ShapeKey :=
  ks.find? (fun k => k.name == n)

/-- `n in key_blocks`: membership by name. -/
def hasKey (ks : List ShapeKey) (n : String) : Bool :=
  (keyLookup ks n).isSome

/-- `key_blocks[n].value = v`: writes the first key block with name `n`. -/
def setKeyValueList : List ShapeKey → String → Rat → List ShapeKey
  | [], _, _ => []
  | k :: rest, n, v =>
    if k.name == n then { k with value := v } :: rest
    else k :: setKeyValueList rest n v

/-- Write value `v` into the key named `n` of the object with id `i`. -/
def setKeyValue (s : Scene) (i : Nat) (n : String) (v : Rat) : Scene :=
  modifyObj s i (fun o =>
    { o with shape_keys := o.shape_keys.map (fun ks => setKeyValueList ks n v) })

/-- Python dict lookup: a later binding shadows an earlier one, as in a
dict built by a comprehension. -/
def dictFind {α : Type} (b : List (String × α)) (n : String) : Option α :=
  (b.reverse.find? (fun p => p.fst == n)).map (fun p => p.snd)

/-- `find` on the key-block collection: index of the named key, `-1` if absent. -/
def findKeyIndex (ks : List ShapeKey) (n : String) : Int :=
  match ks.findIdx? (fun k => k.name == n) with
  | some i => (i : Int)
  | none => -1

/-- The value range of the `sync_value` property (`min=0.0, max=1.0`). -/
def clamp01 (x : Rat) : Rat := max 0 (min 1 x)

/-- `BlendshapeItem.update_sync_value` (src lines 173-187): fired whenever
an item's `sync_value` is assigned.  If a target is set and both the named
target key and the named source key exist, it writes the sync value into
both and makes the target key active.  Returns the (possibly unchanged)
scene and `false` when the Python code would raise: `target.data.shape_keys`
is `None` (so `.key_blocks` raises), or the target key exists but
`scene.bs_source` is `None` / has no shape keys.  The `and` in the source
short-circuits, so a missing target key prevents any source access. -/
def update_sync_value (s : Scene) (item : BlendshapeItem) : Scene × Bool :=
  match s.bs_target.bind (getObj s) with
  | none => (s, true)
  | some tgt =>
    match tgt.shape_keys with
    | none => (s, false)
    | some tkeys =>
      if hasKey tkeys item.target_key_name then
        match s.bs_source.bind (getObj s) with
        | none => (s, false)
        | some src =>
          match src.shape_keys with
          | none => (s, false)
          | some skeys =>
            if hasKey skeys item.source_key_name then
              let v := item.sync_value
              let s1 := setKeyValue s tgt.id item.target_key_name v
              let s2 := setKeyValue s1 src.id item.source_key_name v
              let s3 := modifyObj s2 tgt.id (fun o =>
                { o with active_shape_key_index := findKeyIndex tkeys item.target_key_name })
              (s3, true)
            else (s, true)
      else (s, true)

/-- Assignment `item.sync_value = v` for an item built locally: store the
clamped value, then fire `update_sync_value`.  Returns the item with the
stored value, the scene after the callback, and the callback's success. -/
def assign_sync_value (s : Scene) (item : BlendshapeItem) (v : Rat) :
    BlendshapeItem × Scene × Bool :=
  let item2 := { item with sync_value := clamp01 v }
  let r := update_sync_value s item2
  (item2, r.1, r.2)

/-- Assignment `item.sync_value = v` for the item at index `i` of the
scene's `bs_shape_keys` collection. -/
def setItemSyncValue (s : Scene) (i : Nat) (v : Rat) : Scene × Bool :=
  let item := s.bs_shape_keys.getD i default
  let item2 := { item with sync_value := clamp01 v }
  let s2 := { s with bs_shape_keys := s.bs_shape_keys.set i item2 }
  update_sync_value s2 item2

/-- The snapshot taken at the top of `update_blendshape_list` and by
`save_target`: a dict from item name to its persisted fields. -/
def savedOf (items : List BlendshapeItem) : Blob :=
  items.map (fun it =>
    (it.name, { select := it.select, target_key_name := it.target_key_name,
                source_key_name := it.source_key_name, sync_value := it.sync_value }))

/-- The repopulation loop of `update_blendshape_list` (src lines 39-50).
One item is appended per source key block.  For a key name with saved
state, the saved `select` is restored first; the source then evaluates
`key.name in scene.bs_target.data.shape_keys.key_blocks` with no `None`
check, which raises when the target is unset or has no shape keys — the
partially rebuilt list (including the current item) persists. -/
def ublLoop (saved : Blob) (keys : List ShapeKey) (s : Scene) : Scene × Bool :=
  match keys with
  | [] => (s, true)
  | key :: rest =>
    let item : BlendshapeItem :=
      { name := key.name, select := false, sync_value := 0,
        target_key_name := "", source_key_name := "" }
    match dictFind saved key.name with
    | none =>
      -- `item.select = False`: the explicit default branch
      ublLoop saved rest { s with bs_shape_keys := s.bs_shape_keys ++ [item] }
    | some sv =>
      let item := { item with select := sv.select }
      match s.bs_target.bind (getObj s) with
      | none => ({ s with bs_shape_keys := s.bs_shape_keys ++ [item] }, false)
      | some tgt =>
        match tgt.shape_keys with
        | none => ({ s with bs_shape_keys := s.bs_shape_keys ++ [item] }, false)
        | some tkeys =>
          if hasKey tkeys key.name then
            let item := { item with target_key_name := sv.target_key_name,
                                    source_key_name := sv.source_key_name }
            let r := assign_sync_value s item sv.sync_value
            let s3 := { r.2.1 with bs_shape_keys := r.2.1.bs_shape_keys ++ [r.1] }
            if r.2.2 then ublLoop saved rest s3 else (s3, false)
          else
            ublLoop saved rest { s with bs_shape_keys := s.bs_shape_keys ++ [item] }

/-- `update_blendshape_list` (src lines 22-50): snapshot the current items,
clear the list, and repopulate it from the source's key blocks. -/
def update_blendshape_list (s : Scene) : Scene × Bool :=
  let saved := savedOf s.bs_shape_keys
  let s1 : Scene := { s with bs_shape_keys := [] }
  match s1.bs_source.bind (getObj s1) with
  | none => (s1, true)
  | some src =>
    match src.shape_keys with
    | none => (s1, true)
    | some keys => ublLoop saved keys s1

/-- Current value of the key named `n` on object `objId`; `fallback` is
returned in the (unreachable at call sites) case the key is gone. -/
def currentKeyValue (s : Scene) (objId : Nat) (n : String) (fallback : Rat) : Rat :=
  match (getObjKeys s objId).bind (fun ks => keyLookup ks n) with
  | some k => k.value
  | none => fallback

/-- First loop of the saved-blob branch of `load_target` (src lines 80-96).
Restores all four fields when the key name is in the blob AND on the
target; otherwise resets `select`/names and sets `sync_value = key.value`
(the source key's CURRENT activation value, not zero).  `key.value` is
re-read from the live scene because earlier restore iterations may have
written source key values through the sync callback. -/
def ltLoop1 (saved : Blob) (srcId tgtId : Nat) (keys : List ShapeKey) (s : Scene) :
    Scene × Bool :=
  match keys with
  | [] => (s, true)
  | key :: rest =>
    let item : BlendshapeItem :=
      { name := key.name, select := false, sync_value := 0,
        target_key_name := "", source_key_name := "" }
    let step : Scene × BlendshapeItem × Bool :=
      match dictFind saved key.name with
      | some sv =>
        match (getObj s tgtId).bind (fun o => o.shape_keys) with
        | none => (s, item, false)   -- `in target.data.shape_keys.key_blocks` raises
        | some tkeys =>
          if hasKey tkeys key.name then
            let item := { item with select := sv.select,
                                    target_key_name := sv.target_key_name,
                                    source_key_name := sv.source_key_name }
            let r := assign_sync_value s item sv.sync_value
            (r.2.1, r.1, r.2.2)
          else
            -- reset branch: select/name fields already hold the reset values
            let r := assign_sync_value s item (currentKeyValue s srcId key.name key.value)
            (r.2.1, r.1, r.2.2)
      | none =>
        let r := assign_sync_value s item (currentKeyValue s srcId key.name key.value)
        (r.2.1, r.1, r.2.2)
    let s3 := { step.1 with bs_shape_keys := step.1.bs_shape_keys ++ [step.2.1] }
    if step.2.2 then ltLoop1 saved srcId tgtId rest s3 else (s3, false)

/-- Second loop of the saved-blob branch of `load_target` (src lines
99-105): "Reset blendshapes that are gone from the target".  For every
item whose name is not in the blob it resets the fields again, and sets
`sync_value = key.value` where `key` is the loop variable LEAKED from the
first loop — i.e. the last source key block iterated there. -/
def ltLoop2 (saved : Blob) (srcId : Nat) (leak : ShapeKey) (idxs : List Nat)
    (s : Scene) : Scene × Bool :=
  match idxs with
  | [] => (s, true)
  | i :: rest =>
    let item := s.bs_shape_keys.getD i default
    match dictFind saved item.name with
    | some _ => ltLoop2 saved srcId leak rest s
    | none =>
      let item2 := { item with select := false, target_key_name := "",
                               source_key_name := "" }
      let s2 : Scene := { s with bs_shape_keys := s.bs_shape_keys.set i item2 }
      let r := setItemSyncValue s2 i (currentKeyValue s2 srcId leak.name leak.value)
      if r.2 then ltLoop2 saved srcId leak rest r.1 else (r.1, false)

/-- `load_target` (src lines 52-105).  Target unset: clear the list and,
when a source with shape keys exists, repopulate names only.  Target with
no `bs_saved_data`: clear and defer to `update_blendshape_list`.  Target
with a blob: run the two restore loops above. -/
def load_target (s : Scene) : Scene × Bool :=
  match s.bs_target.bind (getObj s) with
  | none =>
    let s1 : Scene := { s with bs_shape_keys := [] }
    match s1.bs_source.bind (getObj s1) with
    | none => (s1, true)
    | some src =>
      match src.shape_keys with
      | none => (s1, true)
      | some keys =>
        ({ s1 with bs_shape_keys := keys.map (fun k =>
            { name := k.name, select := false, sync_value := 0,
              target_key_name := "", source_key_name := "" }) }, true)
  | some tgt =>
    match tgt.blob with
    | none =>
      update_blendshape_list { s with bs_shape_keys := [] }
    | some saved =>
      let s1 : Scene := { s with bs_shape_keys := [] }
      match s1.bs_source.bind (getObj s1) with
      | none => (s1, true)
      | some src =>
        match src.shape_keys with
        | none => (s1, true)
        | some keys =>
          let r1 := ltLoop1 saved src.id tgt.id keys s1
          if r1.2 then
            match keys.getLast? with
            | none => (r1.1, true)
            | some leak =>
              ltLoop2 saved src.id leak (List.range r1.1.bs_shape_keys.length) r1.1
          else (r1.1, false)

/-- `save_target` (src lines 107-119): write the current list snapshot into
the target's `bs_saved_data` custom property. -/
def save_target (s : Scene) : Scene :=
  match s.bs_target.bind (getObj s) with
  | none => s
  | some tgt => modifyObj s tgt.id (fun o => { o with blob := some (savedOf s.bs_shape_keys) })

/-- `save_and_reset_shape_key_states` (src lines 126-133): snapshot every
key's value on the object and zero them all. -/
def save_and_reset_shape_key_states (s : Scene) (objId : Nat) :
    List (String × Rat) × Scene :=
  match getObjKeys s objId with
  | none => ([], s)
  | some ks =>
    (ks.map (fun k => (k.name, k.value)),
     modifyObj s objId (fun o =>
       { o with shape_keys := o.shape_keys.map (List.map (fun k => { k with value := 0 })) }))

/-- The body of the restore loop of `restore_shape_key_states`: keys whose
name is in the states dict get the saved value; all others are untouched. -/
def restoreKeyList (states : List (String × Rat)) : List ShapeKey → List ShapeKey
  | [] => []
  | k :: rest =>
    match dictFind states k.name with
    | some v => { k with value := v } :: restoreKeyList states rest
    | none => k :: restoreKeyList states rest

/-- `restore_shape_key_states` (src lines 135-140). -/
def restore_shape_key_states (s : Scene) (objId : Nat)
    (states : List (String × Rat)) : Scene :=
  match getObjKeys s objId with
  | none => s
  | some _ =>
    modifyObj s objId (fun o =>
      { o with shape_keys := o.shape_keys.map (restoreKeyList states) })

/-- `ensure_transfer_mask_vertex_group` (src lines 142-149).  Per-vertex
weights are not modelled; only the group's existence is. -/
def ensure_transfer_mask_vertex_group (s : Scene) (tgtId : Nat) : String × Scene :=
  match getObj s tgtId with
  | none => ("BlendshapeTransferMask", s)
  | some tgt =>
    if tgt.vertex_groups.contains "BlendshapeTransferMask" then
      ("BlendshapeTransferMask", s)
    else
      ("BlendshapeTransferMask",
       modifyObj s tgtId (fun o =>
         { o with vertex_groups := o.vertex_groups ++ ["BlendshapeTransferMask"] }))

/-- `ensure_surface_deform_compatibility` (src lines 151-168) splits
non-manifold edges and triangulates.  It touches only mesh geometry
(vertices/edges/faces), which this embedding does not represent; shape
keys, modifiers and object identity are untouched, so it is the identity
on the modelled state. -/
def ensure_surface_deform_compatibility (s : Scene) (_objId : Nat) : Scene := s

/-- `modifiers.new(name, type)`. -/
def addModifier (s : Scene) (objId : Nat) (name mtype : String) : Scene :=
  modifyObj s objId (fun o => { o with modifiers := o.modifiers ++ [⟨name, mtype⟩] })

/-- Removal of the first modifier with the given name. -/
def removeFirstMod : List Modifier → String → List Modifier
  | [], _ => []
  | m :: rest, n => if m.name == n then rest else m :: removeFirstMod rest n

/-- `modifiers.remove(mod)` / `bpy.ops.object.modifier_remove(modifier=n)`. -/
def removeModifierByName (s : Scene) (objId : Nat) (n : String) : Scene :=
  modifyObj s objId (fun o => { o with modifiers := removeFirstMod o.modifiers n })

/-- `shape_key_add` / `modifier_apply_as_shapekey`: append a key block. -/
def appendShapeKey (s : Scene) (objId : Nat) (name : String) (v : Rat) : Scene :=
  modifyObj s objId (fun o =>
    { o with shape_keys := some ((o.shape_keys.getD []) ++ [⟨name, v⟩]) })

/-- `key_blocks[-1].name = n`. -/
def renameLastKey (s : Scene) (objId : Nat) (n : String) : Scene :=
  modifyObj s objId (fun o =>
    { o with shape_keys := o.shape_keys.map (fun ks =>
        match ks.getLast? with
        | none => ks
        | some k => ks.dropLast ++ [{ k with name := n }]) })

/-- `key_blocks[-1].value = v`. -/
def setLastKeyValue (s : Scene) (objId : Nat) (v : Rat) : Scene :=
  modifyObj s objId (fun o =>
    { o with shape_keys := o.shape_keys.map (fun ks =>
        match ks.getLast? with
        | none => ks
        | some k => ks.dropLast ++ [{ k with value := v }]) })

/-- Removal of the first key block with the given name. -/
def removeKeyList : List ShapeKey → String → List ShapeKey
  | [], _ => []
  | k :: rest, n => if k.name == n then rest else k :: removeKeyList rest n

/-- `target.shape_key_remove(target.data.shape_keys.key_blocks[n])`. -/
def removeShapeKey (s : Scene) (objId : Nat) (n : String) : Scene :=
  modifyObj s objId (fun o =>
    { o with shape_keys := o.shape_keys.map (fun ks => removeKeyList ks n) })

/-- The explicit zero loop of src lines 380-381. -/
def zeroAllKeys (s : Scene) (objId : Nat) : Scene :=
  modifyObj s objId (fun o =>
    { o with shape_keys := o.shape_keys.map (List.map (fun k => { k with value := 0 })) })

/-- `for ob in bpy.context.selected_objects: ob.select = False`. -/
def deselectAll (s : Scene) : Scene :=
  { s with objects := s.objects.map (fun o => { o with selected := false }) }

/-- `obj.select = b`. -/
def setSelected (s : Scene) (objId : Nat) (b : Bool) : Scene :=
  modifyObj s objId (fun o => { o with selected := b })

/-- `bpy.ops.object.delete()`: delete every selected object. -/
def deleteSelected (s : Scene) : Scene :=
  { s with objects := s.objects.filter (fun o => !o.selected), active := none }

/-- A message emitted by `self.report`. -/
inductive Report where
  | rerror (msg : String)
  | rwarning (msg : String)
  | rinfo (msg : String)
  deriving Repr, DecidableEq, Inhabited

/-- How a pass through `execute` ends: normal return value, or an uncaught
Python exception (`raised`). -/
inductive OpStatus where
  | finished
  | cancelled
  | raised
  deriving Repr, DecidableEq, Inhabited

/-- Result of running the operator: scene at exit, reports, status. -/
structure OpOutcome where
  scene : Scene
  reports : List Report
  status : OpStatus
  deriving Repr, DecidableEq, Inhabited

/-- `[shape for shape in scene.bs_shape_keys if shape.select]`, as the
indices of the selected items (the loop mutates the items in place, so
they are tracked by position; `select` flags are never written during the
bake loop, so the set is stable). -/
def selectedIdxs (items : List BlendshapeItem) : List Nat :=
  (List.range items.length).filter (fun i => (items.getD i default).select)

/-- The commit tail of one bake-loop iteration (src lines 451-460), run
after the destination name has been chosen: bake a new target key
(`modifier_apply_as_shapekey` appends a key named after the modifier),
rename `key_blocks[-1]` to the chosen name, record the name pair on the
list item, assign its sync value (which fires `update_sync_value`), and
reset the duplicate's key `origName` back to 0 — the reset is skipped if
the sync assignment raised. -/
def bakeCommit (s : Scene) (dupId tgtId i : Nat)
    (origName newName source_key_name : String) (sync_value : Rat) : Scene × Bool :=
  let s2 := appendShapeKey s tgtId "Surface Deform" 0
  let s3 := renameLastKey s2 tgtId newName
  let item4 := { s3.bs_shape_keys.getD i default with target_key_name := newName }
  let s4 : Scene := { s3 with bs_shape_keys := s3.bs_shape_keys.set i item4 }
  let item5 := { s4.bs_shape_keys.getD i default with source_key_name := source_key_name }
  let s5 : Scene := { s4 with bs_shape_keys := s4.bs_shape_keys.set i item5 }
  let r := setItemSyncValue s5 i sync_value
  if r.2 then (setKeyValue r.1 dupId origName 0, true) else (r.1, false)

/-- One iteration of the bake loop of `BlendshapeTransferOperator.execute`
(src lines 428-460), for the selected item at index `i`.  Missing key on
the duplicate: warning, skip.  Otherwise: remember the key's name and
current value, drive it to 1.0, pick the destination name (remove the
same-named target key when overriding, else append the suffix), then run
the commit tail. -/
def bakeOne (s : Scene) (dupId tgtId : Nat) (i : Nat) : Scene × List Report × Bool :=
  let shape := s.bs_shape_keys.getD i default
  let key_name := shape.name
  match (getObjKeys s dupId).bind (fun ks => keyLookup ks key_name) with
  | none =>
    (s, [Report.rwarning ("Blendshape " ++ key_name ++ " not found, skipping.")], true)
  | some key_block =>
    let source_key_name := key_block.name
    let sync_value := key_block.value
    let s1 := setKeyValue s dupId key_name (1 : Rat)
    let tkeys := (getObjKeys s1 tgtId).getD []
    let step : Scene × String :=
      if hasKey tkeys key_name then
        if s1.bs_override_existing then (removeShapeKey s1 tgtId key_name, key_name)
        else (s1, key_name ++ s1.bs_key_suffix)
      else (s1, key_name)
    let r := bakeCommit step.1 dupId tgtId i key_name step.2 source_key_name sync_value
    if r.2 then (r.1, [], true) else (r.1, [], false)

/-- The bake loop over all selected item indices.  A raised exception in
one iteration (`ok = false`) propagates and aborts the operator. -/
def bakeLoop (s : Scene) (dupId tgtId : Nat) : List Nat → Scene × List Report × Bool
  | [] => (s, [], true)
  | i :: rest =>
    let r := bakeOne s dupId tgtId i
    if r.2.2 then
      let r2 := bakeLoop r.1 dupId tgtId rest
      (r2.1, r.2.1 ++ r2.2.1, r2.2.2)
    else (r.1, r.2.1, false)

/-- The `Preprocessing` stage of `execute` (src lines 374-415): save and
zero shape-key states of the duplicate and the target, re-zero the
duplicate's keys, make the duplicate active, optionally add a subdivision
modifier, optionally bake a displacement modifier into a temporary,
fully-activated shape key and remove the modifier, then normalize the
duplicate's topology.  Returns the two saved-state dicts and the scene. -/
def preprocess (s : Scene) (dupId tgtId : Nat) :
    List (String × Rat) × List (String × Rat) × Scene :=
  let p1 := save_and_reset_shape_key_states s dupId
  let p2 := save_and_reset_shape_key_states p1.2 tgtId
  let s := zeroAllKeys p2.2 dupId
  let s : Scene := { s with active := some dupId }
  let s := if s.bs_use_subdivision
           then addModifier s dupId "Subdivision Temp" "SUBSURF" else s
  let s :=
    if s.bs_use_displace then
      let s := addModifier s dupId "Displace Temp" "DISPLACE"
      -- modifier_apply_as_shapekey on the active object (the duplicate)
      let s := appendShapeKey s dupId "Displace Temp" 0
      let s := renameLastKey s dupId "Displace Temp"
      let s := setLastKeyValue s dupId 1
      removeModifierByName s dupId "Displace Temp"
    else s
  (p1.1, p2.1, ensure_surface_deform_compatibility s dupId)

/-- The `Binding` stage of `execute` (src lines 410-425): ensure the
target has a Basis key and the mask vertex group, attach the surface
deform modifier, and make the target the active object.  The bind itself
is a host-side geometric computation, the identity on modelled state. -/
def bindTarget (s : Scene) (tgtId : Nat) : Scene :=
  let s := if (getObjKeys s tgtId).isNone then appendShapeKey s tgtId "Basis" 0 else s
  let s := (ensure_transfer_mask_vertex_group s tgtId).2
  let s := addModifier s tgtId "Surface Deform" "SURFACE_DEFORM"
  { s with active := some tgtId }

/-- The `Cleanup` stage of `execute` (src lines 462-483): restore the
saved shape-key states of the duplicate and the target, remove the
temporary subdivision modifier and displacement key from the duplicate,
remove the surface-deform modifier from the active object (the target),
persist the list to the target, and delete the duplicate. -/
def cleanup (s : Scene) (dupId tgtId : Nat)
    (saved_states saved_states_target : List (String × Rat)) : Scene :=
  let s := restore_shape_key_states s dupId saved_states
  let s := restore_shape_key_states s tgtId saved_states_target
  let s := if s.bs_use_subdivision
           then removeModifierByName s dupId "Subdivision Temp" else s
  let s := if s.bs_use_displace then removeShapeKey s dupId "Displace Temp" else s
  -- modifier_remove acts on the active object, i.e. the target
  let s := removeModifierByName s tgtId "Surface Deform"
  let s := save_target s
  let s := deselectAll s
  let s := setSelected s dupId true
  let s : Scene := { s with active := some dupId }
  deleteSelected s

/-- `BlendshapeTransferOperator.execute` (src lines 350-485).

The source is duplicated and linked into the scene BEFORE any validation
runs (src lines 352-354); `scene.bs_source.copy()` raises when no source
is set.  The validation checks then report and return `CANCELLED` with
the duplicate still linked.  After validation the run proceeds through
`preprocess`, `bindTarget`, the bake loop and `cleanup`. -/
def execute (s0 : Scene) : OpOutcome :=
  match s0.bs_source.bind (getObj s0) with
  | none => { scene := s0, reports := [], status := OpStatus.raised }
  | some origSrc =>
    let dupId := s0.next_id
    let dup : Obj := { origSrc with id := dupId, selected := false }
    let s : Scene := { s0 with objects := s0.objects ++ [dup], next_id := dupId + 1 }
    match s.bs_target with
    | none =>
      { scene := s, reports := [Report.rerror "Source or target object not set!"],
        status := OpStatus.cancelled }
    | some tgtId =>
      match dup.shape_keys with
      | none =>
        { scene := s, reports := [Report.rerror "Source object has no shape keys!"],
          status := OpStatus.cancelled }
      | some _ =>
        let sel := selectedIdxs s.bs_shape_keys
        if sel.isEmpty then
          { scene := s, reports := [Report.rerror "No blendshapes selected!"],
            status := OpStatus.cancelled }
        else
          let p := preprocess s dupId tgtId
          let s := bindTarget p.2.2 tgtId
          let r := bakeLoop s dupId tgtId sel
          if r.2.2 then
            { scene := cleanup r.1 dupId tgtId p.1 p.2.1,
              reports := r.2.1 ++ [Report.rinfo "Successfully transferred blendshapes."],
              status := OpStatus.finished }
          else
            { scene := r.1, reports := r.2.1, status := OpStatus.raised }

/-- The value of the key named `n` on object `i`, when present. -/
def keyValueOf (s : Scene) (i : Nat) (n : String) : Option Rat :=
  ((getObjKeys s i).bind (fun ks => keyLookup ks n)).map (fun k => k.value)

/-! ### Concrete scenarios

Small scenes used to evaluate the embedded code on explicit inputs. -/

/-- A source object with two shape keys, `KeyA` fully activated. -/
def oSrc : Obj :=
  { id := 0, shape_keys := some [⟨"KeyA", 1⟩, ⟨"KeyB", 0⟩], modifiers := [],
    vertex_groups := [], selected := false, active_shape_key_index := 0, blob := none }

/-- A target object with only a Basis key and no saved blob. -/
def oTgt : Obj :=
  { id := 1, shape_keys := some [⟨"Basis", 0⟩], modifiers := [],
    vertex_groups := [], selected := false, active_shape_key_index := 0, blob := none }

/-- A fully configured scene: source and target set, `KeyA` selected. -/
def baseScene : Scene :=
  { objects := [oSrc, oTgt], next_id := 2, active := none,
    bs_source := some 0, bs_target := some 1,
    bs_shape_keys := [⟨"KeyA", true, 0, "", ""⟩, ⟨"KeyB", false, 0, "", ""⟩],
    bs_override_existing := true, bs_key_suffix := "_new",
    bs_use_subdivision := false, bs_use_displace := false }

/-- `baseScene` with no list entry selected. -/
def sNoSelection : Scene :=
  { baseScene with bs_shape_keys := [⟨"KeyA", false, 0, "", ""⟩] }

/-- `baseScene` with no source object set. -/
def sNoSource : Scene :=
  { baseScene with bs_source := none }

/-- Source set (two keys), no target, empty list: the synchronizer
idempotence scenario. -/
def sTargetUnset : Scene :=
  { baseScene with bs_target := none, bs_shape_keys := [] }

/-- Source whose keys hold the activations 0 (`KeyA`) and 1 (`KeyB`). -/
def oSrcLd : Obj :=
  { oSrc with shape_keys := some [⟨"KeyA", 0⟩, ⟨"KeyB", 1⟩] }

/-- The blob entry saved for `KeyB`. -/
def savedKeyB : SavedEntry :=
  { select := true, target_key_name := "KeyB", source_key_name := "KeyB", sync_value := 1 }

/-- Target carrying a saved blob that mentions only `KeyB` (a key the
target itself does not have). -/
def oTgtLd : Obj :=
  { oTgt with blob := some [("KeyB", savedKeyB)] }

/-- The target-reassignment scenario for the saved-blob loader. -/
def sLoad : Scene :=
  { baseScene with objects := [oSrcLd, oTgtLd] }

/-- A configured target object that has no shape keys at all. -/
def oTgtNoKeys : Obj :=
  { oTgt with shape_keys := none }

/-- Configured source and target, target without shape keys, one carried
list entry: the synchronizer crash scenario. -/
def sTgtNoKeys : Scene :=
  { baseScene with
    objects := [oSrc, oTgtNoKeys],
    bs_shape_keys := [⟨"KeyA", false, 0, "", ""⟩] }

/-- The scene used as the witness for the missing-key skip: `baseScene`
whose only (selected) list entry names a key the source does not have. -/
def sGhost : Scene :=
  { baseScene with bs_shape_keys := [⟨"Ghost", true, 0, "", ""⟩] }

/-- A target that already has a key named `KeyA`. -/
def oTgtHasA : Obj :=
  { oTgt with shape_keys := some [⟨"Basis", 0⟩, ⟨"KeyA", 0⟩] }

/-- `baseScene` against a target that already has `KeyA`. -/
def sOverride : Scene :=
  { baseScene with objects := [oSrc, oTgtHasA] }

/-!  ### Theorems  -/

/-!  #### A toolbox of lemmas about the scene primitives  -/

theorem getObj_id {s : Scene} {i : Nat} {o : Obj} (h : getObj s i = some o) :
    o.id = i := by
  have := List.find?_some h
  simpa using this

theorem getObj_modifyObj (s : Scene) (j : Nat) (f : Obj → Obj)
    (hid : ∀ o, (f o).id = o.id) (i : Nat) :
    getObj (modifyObj s j f) i
      = (getObj s i).map (fun o => if o.id == j then f o else o) := by
  unfold getObj modifyObj
  rw [List.find?_map]
  have hc : ((fun o : Obj => o.id == i) ∘ fun o => if o.id == j then f o else o)
      = (fun o : Obj => o.id == i) := by
    funext o
    by_cases h : o.id = j <;> simp [h, hid]
  rw [hc]

theorem getObj_modifyObj_ne {s : Scene} {j : Nat} {f : Obj → Obj}
    (hid : ∀ o, (f o).id = o.id) {i : Nat} (hne : i ≠ j) :
    getObj (modifyObj s j f) i = getObj s i := by
  rw [getObj_modifyObj s j f hid i]
  cases hg : getObj s i with
  | none => rfl
  | some o => simp [getObj_id hg, hne]

theorem getObj_modifyObj_self {s : Scene} {j : Nat} {f : Obj → Obj}
    (hid : ∀ o, (f o).id = o.id) :
    getObj (modifyObj s j f) j = (getObj s j).map f := by
  rw [getObj_modifyObj s j f hid j]
  cases hg : getObj s j with
  | none => rfl
  | some o => simp [getObj_id hg]

theorem getObj_isSome_modifyObj {s : Scene} {j : Nat} {f : Obj → Obj}
    (hid : ∀ o, (f o).id = o.id) (i : Nat) :
    (getObj (modifyObj s j f) i).isSome = (getObj s i).isSome := by
  rw [getObj_modifyObj s j f hid i]
  cases getObj s i <;> rfl

theorem getObjKeys_modifyObj_ne {s : Scene} {j : Nat} {f : Obj → Obj}
    (hid : ∀ o, (f o).id = o.id) {i : Nat} (hne : i ≠ j) :
    getObjKeys (modifyObj s j f) i = getObjKeys s i := by
  unfold getObjKeys
  rw [getObj_modifyObj_ne hid hne]

theorem getObjKeys_modifyObj_self {s : Scene} {j : Nat} {f : Obj → Obj}
    (hid : ∀ o, (f o).id = o.id) :
    getObjKeys (modifyObj s j f) j = (getObj s j).bind (fun o => (f o).shape_keys) := by
  unfold getObjKeys
  rw [getObj_modifyObj_self hid]
  cases getObj s j <;> rfl

theorem getObjKeys_isSome_modifyObj {s : Scene} {j : Nat} {f : Obj → Obj}
    (hid : ∀ o, (f o).id = o.id)
    (hk : ∀ o, (f o).shape_keys.isSome = o.shape_keys.isSome) (i : Nat) :
    (getObjKeys (modifyObj s j f) i).isSome = (getObjKeys s i).isSome := by
  unfold getObjKeys
  rw [getObj_modifyObj s j f hid i]
  cases getObj s i with
  | none => rfl
  | some o =>
    by_cases h : o.id = j <;> simp [h, hk]

theorem modsOf_modifyObj_keysOnly {s : Scene} {j : Nat} {f : Obj → Obj}
    (hid : ∀ o, (f o).id = o.id)
    (hm : ∀ o, (f o).modifiers = o.modifiers) (i : Nat) :
    modsOf (modifyObj s j f) i = modsOf s i := by
  unfold modsOf
  rw [getObj_modifyObj s j f hid i]
  cases getObj s i with
  | none => rfl
  | some o =>
    by_cases h : o.id = j <;> simp [h, hm]

@[simp] theorem modifyObj_bs_source (s : Scene) (j : Nat) (f : Obj → Obj) :
    (modifyObj s j f).bs_source = s.bs_source := rfl

@[simp] theorem modifyObj_bs_target (s : Scene) (j : Nat) (f : Obj → Obj) :
    (modifyObj s j f).bs_target = s.bs_target := rfl

@[simp] theorem modifyObj_bs_shape_keys (s : Scene) (j : Nat) (f : Obj → Obj) :
    (modifyObj s j f).bs_shape_keys = s.bs_shape_keys := rfl

@[simp] theorem modifyObj_bs_override (s : Scene) (j : Nat) (f : Obj → Obj) :
    (modifyObj s j f).bs_override_existing = s.bs_override_existing := rfl

@[simp] theorem modifyObj_bs_key_suffix (s : Scene) (j : Nat) (f : Obj → Obj) :
    (modifyObj s j f).bs_key_suffix = s.bs_key_suffix := rfl

@[simp] theorem modifyObj_bs_use_subdivision (s : Scene) (j : Nat) (f : Obj → Obj) :
    (modifyObj s j f).bs_use_subdivision = s.bs_use_subdivision := rfl

@[simp] theorem modifyObj_bs_use_displace (s : Scene) (j : Nat) (f : Obj → Obj) :
    (modifyObj s j f).bs_use_displace = s.bs_use_displace := rfl

@[simp] theorem modifyObj_next_id (s : Scene) (j : Nat) (f : Obj → Obj) :
    (modifyObj s j f).next_id = s.next_id := rfl

@[simp] theorem modifyObj_active (s : Scene) (j : Nat) (f : Obj → Obj) :
    (modifyObj s j f).active = s.active := rfl

/-- The case structure of `update_sync_value`: either the scene is
returned untouched, or both named keys existed and the two writes (plus
the active-index update) happened. -/
theorem usv_cases (s : Scene) (it : BlendshapeItem) :
    (update_sync_value s it).1 = s ∨
    ∃ tgt tks src sks,
      s.bs_target.bind (getObj s) = some tgt ∧ tgt.shape_keys = some tks ∧
      hasKey tks it.target_key_name = true ∧
      s.bs_source.bind (getObj s) = some src ∧ src.shape_keys = some sks ∧
      hasKey sks it.source_key_name = true ∧
      (update_sync_value s it).1 =
        modifyObj (setKeyValue (setKeyValue s tgt.id it.target_key_name it.sync_value)
                     src.id it.source_key_name it.sync_value)
          tgt.id (fun o => { o with active_shape_key_index :=
                               findKeyIndex tks it.target_key_name }) := by
  cases h1 : s.bs_target.bind (getObj s) with
  | none => exact Or.inl (by simp [update_sync_value, h1])
  | some tgt =>
    cases h2 : tgt.shape_keys with
    | none => exact Or.inl (by simp [update_sync_value, h1, h2])
    | some tks =>
      by_cases h3 : hasKey tks it.target_key_name
      · cases h4 : s.bs_source.bind (getObj s) with
        | none => exact Or.inl (by simp [update_sync_value, h1, h2, h3, h4])
        | some src =>
          cases h5 : src.shape_keys with
          | none => exact Or.inl (by simp [update_sync_value, h1, h2, h3, h4, h5])
          | some sks =>
            by_cases h6 : hasKey sks it.source_key_name
            · refine Or.inr ⟨tgt, tks, src, sks, rfl, h2, h3, rfl, h5, h6, ?_⟩
              simp [update_sync_value, h1, h2, h3, h4, h5, h6]
            · exact Or.inl (by simp [update_sync_value, h1, h2, h3, h4, h5, h6])
      · exact Or.inl (by simp [update_sync_value, h1, h2, h3])

theorem getObj_isSome_setKeyValue (s : Scene) (j : Nat) (n : String) (v : Rat)
    (i : Nat) : (getObj (setKeyValue s j n v) i).isSome = (getObj s i).isSome := by
  unfold setKeyValue
  apply getObj_isSome_modifyObj
  intro o; rfl

theorem getObjKeys_isSome_setKeyValue (s : Scene) (j : Nat) (n : String) (v : Rat)
    (i : Nat) :
    (getObjKeys (setKeyValue s j n v) i).isSome = (getObjKeys s i).isSome := by
  unfold setKeyValue
  apply getObjKeys_isSome_modifyObj
  · intro o; rfl
  · intro o; cases o.shape_keys <;> rfl

theorem modsOf_setKeyValue (s : Scene) (j : Nat) (n : String) (v : Rat) (i : Nat) :
    modsOf (setKeyValue s j n v) i = modsOf s i := by
  unfold setKeyValue
  apply modsOf_modifyObj_keysOnly
  · intro o; rfl
  · intro o; rfl

theorem usv_fst_bs_shape_keys (s : Scene) (it : BlendshapeItem) :
    (update_sync_value s it).1.bs_shape_keys = s.bs_shape_keys := by
  rcases usv_cases s it with h | ⟨tgt, tks, src, sks, _, _, _, _, _, _, h⟩ <;>
    simp [h, setKeyValue]

theorem usv_fst_bs_target (s : Scene) (it : BlendshapeItem) :
    (update_sync_value s it).1.bs_target = s.bs_target := by
  rcases usv_cases s it with h | ⟨tgt, tks, src, sks, _, _, _, _, _, _, h⟩ <;>
    simp [h, setKeyValue]

theorem usv_fst_bs_source (s : Scene) (it : BlendshapeItem) :
    (update_sync_value s it).1.bs_source = s.bs_source := by
  rcases usv_cases s it with h | ⟨tgt, tks, src, sks, _, _, _, _, _, _, h⟩ <;>
    simp [h, setKeyValue]

theorem usv_getObj_isSome (s : Scene) (it : BlendshapeItem) (i : Nat) :
    (getObj (update_sync_value s it).1 i).isSome = (getObj s i).isSome := by
  rcases usv_cases s it with h | ⟨tgt, tks, src, sks, _, _, _, _, _, _, h⟩
  · rw [h]
  · rw [h]
    have e1 : ∀ t : Scene,
        (getObj (modifyObj t tgt.id (fun o =>
          { o with active_shape_key_index :=
              findKeyIndex tks it.target_key_name })) i).isSome
          = (getObj t i).isSome := by
      intro t
      apply getObj_isSome_modifyObj
      intro o; rfl
    rw [e1, getObj_isSome_setKeyValue, getObj_isSome_setKeyValue]

theorem usv_getObjKeys_isSome (s : Scene) (it : BlendshapeItem) (i : Nat) :
    (getObjKeys (update_sync_value s it).1 i).isSome = (getObjKeys s i).isSome := by
  rcases usv_cases s it with h | ⟨tgt, tks, src, sks, _, _, _, _, _, _, h⟩
  · rw [h]
  · rw [h]
    have e1 : ∀ t : Scene,
        (getObjKeys (modifyObj t tgt.id (fun o =>
          { o with active_shape_key_index :=
              findKeyIndex tks it.target_key_name })) i).isSome
          = (getObjKeys t i).isSome := by
      intro t
      apply getObjKeys_isSome_modifyObj
      · intro o; rfl
      · intro o; rfl
    rw [e1, getObjKeys_isSome_setKeyValue, getObjKeys_isSome_setKeyValue]

theorem usv_modsOf (s : Scene) (it : BlendshapeItem) (i : Nat) :
    modsOf (update_sync_value s it).1 i = modsOf s i := by
  rcases usv_cases s it with h | ⟨tgt, tks, src, sks, _, _, _, _, _, _, h⟩
  · rw [h]
  · rw [h]
    have e1 : ∀ t : Scene,
        modsOf (modifyObj t tgt.id (fun o =>
          { o with active_shape_key_index :=
              findKeyIndex tks it.target_key_name })) i
          = modsOf t i := by
      intro t
      apply modsOf_modifyObj_keysOnly
      · intro o; rfl
      · intro o; rfl
    rw [e1, modsOf_setKeyValue, modsOf_setKeyValue]

/-!  #### Lemmas about key-block list operations  -/

theorem keyLookup_cons_pos {k : ShapeKey} {n : String} (h : k.name = n)
    (rest : List ShapeKey) : keyLookup (k :: rest) n = some k := by
  unfold keyLookup
  exact List.find?_cons_of_pos rest (by simp [h])

theorem keyLookup_cons_neg {k : ShapeKey} {n : String} (h : k.name ≠ n)
    (rest : List ShapeKey) : keyLookup (k :: rest) n = keyLookup rest n := by
  unfold keyLookup
  exact List.find?_cons_of_neg rest (by simp [h])

theorem hasKey_cons_pos {k : ShapeKey} {n : String} (h : k.name = n)
    (rest : List ShapeKey) : hasKey (k :: rest) n = true := by
  unfold hasKey
  rw [keyLookup_cons_pos h]
  rfl

theorem hasKey_cons_neg {k : ShapeKey} {n : String} (h : k.name ≠ n)
    (rest : List ShapeKey) : hasKey (k :: rest) n = hasKey rest n := by
  unfold hasKey
  rw [keyLookup_cons_neg h]

theorem setKeyValueList_cons_pos {k : ShapeKey} {n : String} (h : k.name = n)
    (rest : List ShapeKey) (v : Rat) :
    setKeyValueList (k :: rest) n v = { k with value := v } :: rest := by
  unfold setKeyValueList
  simp [h]

theorem setKeyValueList_cons_neg {k : ShapeKey} {n : String} (h : k.name ≠ n)
    (rest : List ShapeKey) (v : Rat) :
    setKeyValueList (k :: rest) n v = k :: setKeyValueList rest n v := by
  have hb : ¬ ((k.name == n) = true) := by simp [h]
  simp only [setKeyValueList, if_neg hb]

theorem removeKeyList_cons_pos {k : ShapeKey} {n : String} (h : k.name = n)
    (rest : List ShapeKey) : removeKeyList (k :: rest) n = rest := by
  unfold removeKeyList
  simp [h]

theorem removeKeyList_cons_neg {k : ShapeKey} {n : String} (h : k.name ≠ n)
    (rest : List ShapeKey) : removeKeyList (k :: rest) n = k :: removeKeyList rest n := by
  have hb : ¬ ((k.name == n) = true) := by simp [h]
  simp only [removeKeyList, if_neg hb]

theorem setKeyValueList_names (ks : List ShapeKey) (n : String) (v : Rat) :
    (setKeyValueList ks n v).map ShapeKey.name = ks.map ShapeKey.name := by
  induction ks with
  | nil => rfl
  | cons k rest ih =>
    by_cases h : k.name = n
    · rw [setKeyValueList_cons_pos h]
      simp
    · rw [setKeyValueList_cons_neg h]
      simp [ih]

theorem keyLookup_setKeyValueList_self (ks : List ShapeKey) (n : String) (v : Rat)
    (h : hasKey ks n = true) :
    (keyLookup (setKeyValueList ks n v) n).map ShapeKey.value = some v := by
  induction ks with
  | nil => simp [hasKey, keyLookup] at h
  | cons k rest ih =>
    by_cases hk : k.name = n
    · rw [setKeyValueList_cons_pos hk,
         keyLookup_cons_pos (show ({ k with value := v } : ShapeKey).name = n from hk)]
      rfl
    · have h' : hasKey rest n = true := by rw [← hasKey_cons_neg hk rest]; exact h
      rw [setKeyValueList_cons_neg hk, keyLookup_cons_neg hk]
      exact ih h'

theorem keyLookup_setKeyValueList_ne (ks : List ShapeKey) (n m : String) (v : Rat)
    (hne : m ≠ n) :
    keyLookup (setKeyValueList ks n v) m = keyLookup ks m := by
  induction ks with
  | nil => rfl
  | cons k rest ih =>
    by_cases hk : k.name = n
    · have hm : k.name ≠ m := by rw [hk]; exact fun hc => hne hc.symm
      rw [setKeyValueList_cons_pos hk,
          keyLookup_cons_neg (show ({ k with value := v } : ShapeKey).name ≠ m from hm),
          keyLookup_cons_neg hm]
    · by_cases hm : k.name = m
      · rw [setKeyValueList_cons_neg hk, keyLookup_cons_pos hm, keyLookup_cons_pos hm]
      · rw [setKeyValueList_cons_neg hk, keyLookup_cons_neg hm, keyLookup_cons_neg hm]
        exact ih

theorem hasKey_setKeyValueList (ks : List ShapeKey) (n m : String) (v : Rat) :
    hasKey (setKeyValueList ks n v) m = hasKey ks m := by
  induction ks with
  | nil => rfl
  | cons k rest ih =>
    by_cases hk : k.name = n
    · by_cases hm : k.name = m
      · rw [setKeyValueList_cons_pos hk,
            hasKey_cons_pos (show ({ k with value := v } : ShapeKey).name = m from hm),
            hasKey_cons_pos hm]
      · rw [setKeyValueList_cons_pos hk,
            hasKey_cons_neg (show ({ k with value := v } : ShapeKey).name ≠ m from hm),
            hasKey_cons_neg hm]
    · by_cases hm : k.name = m
      · rw [setKeyValueList_cons_neg hk, hasKey_cons_pos hm, hasKey_cons_pos hm]
      · rw [setKeyValueList_cons_neg hk, hasKey_cons_neg hm, hasKey_cons_neg hm]
        exact ih

theorem setKeyValueList_append_notmem (L : List ShapeKey) (n : String) (w v : Rat)
    (h : ∀ k ∈ L, k.name ≠ n) :
    setKeyValueList (L ++ [⟨n, w⟩]) n v = L ++ [⟨n, v⟩] := by
  induction L with
  | nil =>
    rw [List.nil_append, setKeyValueList_cons_pos rfl]
    rfl
  | cons k rest ih =>
    have hk : k.name ≠ n := h k (by simp)
    rw [List.cons_append, setKeyValueList_cons_neg hk, List.cons_append,
        ih (fun x hx => h x (by simp [hx]))]

theorem hasKey_false_forall (ks : List ShapeKey) (n : String)
    (h : hasKey ks n = false) : ∀ k ∈ ks, k.name ≠ n := by
  intro k hk hc
  unfold hasKey at h
  cases hx : keyLookup ks n with
  | some k' => rw [hx] at h; simp at h
  | none =>
    unfold keyLookup at hx
    have := List.find?_eq_none.mp hx k hk
    simp [hc] at this

theorem removeKeyList_length (ks : List ShapeKey) (n : String)
    (h : hasKey ks n = true) :
    (removeKeyList ks n).length + 1 = ks.length := by
  induction ks with
  | nil => simp [hasKey, keyLookup] at h
  | cons k rest ih =>
    by_cases hk : k.name = n
    · rw [removeKeyList_cons_pos hk]
      rfl
    · have h' : hasKey rest n = true := by rw [← hasKey_cons_neg hk rest]; exact h
      rw [removeKeyList_cons_neg hk]
      simp [ih h']

theorem removeKeyList_notmem (ks : List ShapeKey) (n : String)
    (hnd : (ks.map ShapeKey.name).Nodup) :
    ∀ k ∈ removeKeyList ks n, k.name ≠ n := by
  induction ks with
  | nil => intro k hk; simp [removeKeyList] at hk
  | cons a rest ih =>
    rw [List.map_cons, List.nodup_cons] at hnd
    by_cases ha : a.name = n
    · rw [removeKeyList_cons_pos ha]
      intro k hk hc
      exact hnd.1 (by rw [ha, ← hc]; exact List.mem_map_of_mem ShapeKey.name hk)
    · rw [removeKeyList_cons_neg ha]
      intro k hk
      rcases List.mem_cons.mp hk with rfl | hk'
      · exact ha
      · exact ih hnd.2 k hk'

theorem getObjKeys_modifyObj_keepKeys {s : Scene} {j : Nat} {f : Obj → Obj}
    (hid : ∀ o, (f o).id = o.id)
    (hk : ∀ o, (f o).shape_keys = o.shape_keys) (i : Nat) :
    getObjKeys (modifyObj s j f) i = getObjKeys s i := by
  unfold getObjKeys
  rw [getObj_modifyObj s j f hid i]
  cases getObj s i with
  | none => rfl
  | some o => by_cases h : o.id = j <;> simp [h, hk]

theorem getObjKeys_setKeyValue_ne {s : Scene} {j : Nat} {n : String} {v : Rat}
    {i : Nat} (hne : i ≠ j) :
    getObjKeys (setKeyValue s j n v) i = getObjKeys s i := by
  unfold setKeyValue
  apply getObjKeys_modifyObj_ne _ hne
  intro o; rfl

theorem getObjKeys_setKeyValue_self (s : Scene) (j : Nat) (n : String) (v : Rat) :
    getObjKeys (setKeyValue s j n v) j
      = (getObjKeys s j).map (fun ks => setKeyValueList ks n v) := by
  unfold setKeyValue
  have e : getObjKeys (modifyObj s j (fun o =>
      { o with shape_keys := o.shape_keys.map (fun ks => setKeyValueList ks n v) })) j
      = (getObj s j).bind (fun o =>
          (o.shape_keys.map (fun ks => setKeyValueList ks n v))) := by
    apply getObjKeys_modifyObj_self
    intro o; rfl
  rw [e]
  unfold getObjKeys
  cases getObj s j with
  | none => rfl
  | some o => cases o.shape_keys <;> rfl

/-- The per-key characterization of the restore loop: keys named in the
states dict receive the saved value; keys absent from the dict keep
their value; names occur positionally unchanged. -/
theorem restoreKeyList_forall2 (states : List (String × Rat)) (ks : List ShapeKey) :
    List.Forall₂ (fun k k' : ShapeKey =>
      k'.name = k.name ∧ k'.value = (dictFind states k.name).getD k.value)
      ks (restoreKeyList states ks) := by
  induction ks with
  | nil => exact List.Forall₂.nil
  | cons k rest ih =>
    cases h : dictFind states k.name with
    | some v =>
      rw [show restoreKeyList states (k :: rest)
            = { k with value := v } :: restoreKeyList states rest by
          simp only [restoreKeyList, h]]
      exact List.Forall₂.cons ⟨rfl, by simp [h]⟩ ih
    | none =>
      rw [show restoreKeyList states (k :: rest) = k :: restoreKeyList states rest by
          simp only [restoreKeyList, h]]
      exact List.Forall₂.cons ⟨rfl, by simp [h]⟩ ih

/-- C10.  `restore_shape_key_states` maps the object's key list through
`restoreKeyList`: every key whose name is in the saved-states dict gets
the saved value, every key whose name is absent (e.g. created after the
save) keeps its current value, and unmatched names in either direction
produce no error (the function is total: both the `key.name in states`
test and the surrounding `if source and source.data.shape_keys` guard are
modelled). -/
theorem restore_shape_key_states_frame (s : Scene) (objId : Nat)
    (states : List (String × Rat)) (ks : List ShapeKey)
    (h : getObjKeys s objId = some ks) :
    getObjKeys (restore_shape_key_states s objId states) objId
      = some (restoreKeyList states ks) ∧
    List.Forall₂ (fun k k' : ShapeKey =>
      k'.name = k.name ∧ k'.value = (dictFind states k.name).getD k.value)
      ks (restoreKeyList states ks) := by
  refine ⟨?_, restoreKeyList_forall2 states ks⟩
  unfold restore_shape_key_states
  rw [h]
  have e : getObjKeys (modifyObj s objId (fun o =>
      { o with shape_keys := o.shape_keys.map (restoreKeyList states) })) objId
      = (getObj s objId).bind (fun o => (o.shape_keys.map (restoreKeyList states))) := by
    apply getObjKeys_modifyObj_self
    intro o; rfl
  rw [e]
  unfold getObjKeys at h
  cases hg : getObj s objId with
  | none => rw [hg] at h; simp at h
  | some o =>
    rw [hg] at h
    simp only [Option.some_bind] at h
    simp [h]

/-- Witness for C10 at a concrete input: restoring `[("KeyA", 0)]` on the
`baseScene` source assigns 0 to `KeyA` and leaves `KeyB` untouched. -/
theorem restore_shape_key_states_frame_witness :
    getObjKeys (restore_shape_key_states baseScene 0 [("KeyA", 0)]) 0
      = some (restoreKeyList [("KeyA", 0)] [⟨"KeyA", 1⟩, ⟨"KeyB", 0⟩]) ∧
    List.Forall₂ (fun k k' : ShapeKey =>
      k'.name = k.name ∧ k'.value = (dictFind [("KeyA", (0 : Rat))] k.name).getD k.value)
      [⟨"KeyA", 1⟩, ⟨"KeyB", 0⟩] (restoreKeyList [("KeyA", 0)] [⟨"KeyA", 1⟩, ⟨"KeyB", 0⟩]) :=
  restore_shape_key_states_frame baseScene 0 [("KeyA", 0)] [⟨"KeyA", 1⟩, ⟨"KeyB", 0⟩] rfl

/-- C9.  `update_sync_value` is all-or-nothing: when the named target key
and the named source key both exist, both receive the sync value; when
either is missing (or anything on the way raises), the scene is returned
entirely unchanged. -/
theorem update_sync_value_all_or_nothing (s : Scene) (it : BlendshapeItem) :
    (∀ tgt tks src sks,
      s.bs_target.bind (getObj s) = some tgt → tgt.shape_keys = some tks →
      hasKey tks it.target_key_name = true →
      s.bs_source.bind (getObj s) = some src → src.shape_keys = some sks →
      hasKey sks it.source_key_name = true →
      keyValueOf (update_sync_value s it).1 tgt.id it.target_key_name
          = some it.sync_value ∧
      keyValueOf (update_sync_value s it).1 src.id it.source_key_name
          = some it.sync_value)
    ∧ ((¬ ∃ tgt tks src sks,
          s.bs_target.bind (getObj s) = some tgt ∧ tgt.shape_keys = some tks ∧
          hasKey tks it.target_key_name = true ∧
          s.bs_source.bind (getObj s) = some src ∧ src.shape_keys = some sks ∧
          hasKey sks it.source_key_name = true) →
        (update_sync_value s it).1 = s) := by
  constructor
  · intro tgt tks src sks h1 h2 h3 h4 h5 h6
    have hu : (update_sync_value s it).1 =
        modifyObj (setKeyValue (setKeyValue s tgt.id it.target_key_name it.sync_value)
                     src.id it.source_key_name it.sync_value)
          tgt.id (fun o => { o with active_shape_key_index :=
                               findKeyIndex tks it.target_key_name }) := by
      simp [update_sync_value, h1, h2, h3, h4, h5, h6]
    have hgt : getObj s tgt.id = some tgt := by
      cases ht : s.bs_target with
      | none => rw [ht] at h1; simp at h1
      | some tid =>
        rw [ht] at h1
        simp only [Option.some_bind] at h1
        rw [getObj_id h1]
        exact h1
    have hgs : getObj s src.id = some src := by
      cases ht : s.bs_source with
      | none => rw [ht] at h4; simp at h4
      | some sid =>
        rw [ht] at h4
        simp only [Option.some_bind] at h4
        rw [getObj_id h4]
        exact h4
    have hkt : getObjKeys s tgt.id = some tks := by
      unfold getObjKeys
      rw [hgt]
      simpa using h2
    have hks : getObjKeys s src.id = some sks := by
      unfold getObjKeys
      rw [hgs]
      simpa using h5
    have hact : ∀ (t : Scene) (i : Nat),
        getObjKeys (modifyObj t tgt.id (fun o =>
          { o with active_shape_key_index :=
              findKeyIndex tks it.target_key_name })) i = getObjKeys t i := by
      intro t i
      apply getObjKeys_modifyObj_keepKeys
      · intro o; rfl
      · intro o; rfl
    rw [hu]
    unfold keyValueOf
    rw [hact, hact]
    by_cases hTS : src.id = tgt.id
    · have hts : tgt = src := by
        rw [← hTS] at hgt
        rw [hgt] at hgs
        exact Option.some_inj.mp hgs
      have htk : tks = sks := by
        rw [hts] at h2
        rw [h2] at h5
        exact Option.some_inj.mp h5
      rw [hTS, getObjKeys_setKeyValue_self, getObjKeys_setKeyValue_self, hkt]
      simp only [Option.map_some', Option.some_bind]
      constructor
      · by_cases hmn : it.target_key_name = it.source_key_name
        · rw [← hmn]
          exact keyLookup_setKeyValueList_self _ _ _
            (by rw [hasKey_setKeyValueList]; exact h3)
        · rw [keyLookup_setKeyValueList_ne _ _ _ _ hmn]
          exact keyLookup_setKeyValueList_self _ _ _ h3
      · exact keyLookup_setKeyValueList_self _ _ _
          (by rw [hasKey_setKeyValueList, htk]; exact h6)
    · constructor
      · rw [getObjKeys_setKeyValue_ne (fun hc => hTS hc.symm),
            getObjKeys_setKeyValue_self, hkt]
        simp only [Option.map_some', Option.some_bind]
        exact keyLookup_setKeyValueList_self _ _ _ h3
      · rw [getObjKeys_setKeyValue_self, getObjKeys_setKeyValue_ne hTS, hks]
        simp only [Option.map_some', Option.some_bind]
        exact keyLookup_setKeyValueList_self _ _ _ h6
  · intro hn
    rcases usv_cases s it with h | ⟨tgt, tks, src, sks, h1, h2, h3, h4, h5, h6, _⟩
    · exact h
    · exact absurd ⟨tgt, tks, src, sks, h1, h2, h3, h4, h5, h6⟩ hn

/-- Witness for C9 at a concrete input: on `baseScene` with an item
naming `Basis` on the target and `KeyB` on the source, both keys receive
the sync value. -/
theorem update_sync_value_all_or_nothing_witness :
    keyValueOf (update_sync_value baseScene
        { name := "KeyB", select := false, sync_value := 1,
          target_key_name := "Basis", source_key_name := "KeyB" }).1 1 "Basis"
      = some 1 ∧
    keyValueOf (update_sync_value baseScene
        { name := "KeyB", select := false, sync_value := 1,
          target_key_name := "Basis", source_key_name := "KeyB" }).1 0 "KeyB"
      = some 1 :=
  (update_sync_value_all_or_nothing baseScene
      { name := "KeyB", select := false, sync_value := 1,
        target_key_name := "Basis", source_key_name := "KeyB" }).1
    oTgt [⟨"Basis", 0⟩] oSrc [⟨"KeyA", 1⟩, ⟨"KeyB", 0⟩]
    rfl rfl rfl rfl rfl rfl

@[simp] theorem getObj_set_list (s : Scene) (l : List BlendshapeItem) (i : Nat) :
    getObj { s with bs_shape_keys := l } i = getObj s i := rfl

@[simp] theorem getObjKeys_set_list (s : Scene) (l : List BlendshapeItem) (i : Nat) :
    getObjKeys { s with bs_shape_keys := l } i = getObjKeys s i := rfl

@[simp] theorem modsOf_set_list (s : Scene) (l : List BlendshapeItem) (i : Nat) :
    modsOf { s with bs_shape_keys := l } i = modsOf s i := rfl

@[simp] theorem getObj_set_active (s : Scene) (a : Option Nat) (i : Nat) :
    getObj { s with active := a } i = getObj s i := rfl

@[simp] theorem getObjKeys_set_active (s : Scene) (a : Option Nat) (i : Nat) :
    getObjKeys { s with active := a } i = getObjKeys s i := rfl

@[simp] theorem modsOf_set_active (s : Scene) (a : Option Nat) (i : Nat) :
    modsOf { s with active := a } i = modsOf s i := rfl

/-- When the target (if it resolves) has shape keys and the source
pointer resolves to an object with shape keys, the sync callback cannot
raise. -/
theorem usv_ok (s : Scene) (it : BlendshapeItem)
    (ht : ∀ o, s.bs_target.bind (getObj s) = some o → o.shape_keys.isSome = true)
    (hs : ((s.bs_source.bind (getObj s)).bind (fun o => o.shape_keys)).isSome = true) :
    (update_sync_value s it).2 = true := by
  cases h1 : s.bs_target.bind (getObj s) with
  | none => simp [update_sync_value, h1]
  | some tgt =>
    cases h2 : tgt.shape_keys with
    | none =>
      have := ht tgt h1
      rw [h2] at this
      simp at this
    | some tks =>
      by_cases h3 : hasKey tks it.target_key_name
      · cases h4 : s.bs_source.bind (getObj s) with
        | none => rw [h4] at hs; simp at hs
        | some src =>
          cases h5 : src.shape_keys with
          | none =>
            rw [h4] at hs
            simp only [Option.some_bind] at hs
            rw [h5] at hs
            simp at hs
          | some sks =>
            by_cases h6 : hasKey sks it.source_key_name <;>
              simp [update_sync_value, h1, h2, h3, h4, h5, h6]
      · simp [update_sync_value, h1, h2, h3]

/-- The sync callback preserves whether a pointer resolves to an object
with shape keys. -/
theorem usv_ptr_isSome (s : Scene) (it : BlendshapeItem) (p : Option Nat) :
    ((p.bind (getObj (update_sync_value s it).1)).bind (fun o => o.shape_keys)).isSome
      = ((p.bind (getObj s)).bind (fun o => o.shape_keys)).isSome := by
  cases p with
  | none => rfl
  | some i =>
    simp only [Option.some_bind]
    exact usv_getObjKeys_isSome s it i

/-- One warning and no state change for a missing key: the body of the
bake loop for an entry whose key is gone. -/
theorem bakeOne_missing_key (s : Scene) (dupId tgtId i : Nat)
    (h : (getObjKeys s dupId).bind
        (fun ks => keyLookup ks (s.bs_shape_keys.getD i default).name) = none) :
    bakeOne s dupId tgtId i
      = (s, [Report.rwarning ("Blendshape " ++ (s.bs_shape_keys.getD i default).name
          ++ " not found, skipping.")], true) := by
  simp only [bakeOne, h]

/-- C8.  A selected entry whose named shape key no longer exists on the
duplicate produces exactly one per-item warning, commits nothing (the
scene handed to the remaining entries is unchanged), and processing
continues with the remaining selected entries with the same success flag:
the run is not aborted by the missing key. -/
theorem bakeLoop_missing_key_skips (s : Scene) (dupId tgtId i : Nat) (rest : List Nat)
    (h : (getObjKeys s dupId).bind
        (fun ks => keyLookup ks (s.bs_shape_keys.getD i default).name) = none) :
    (bakeLoop s dupId tgtId (i :: rest)).1 = (bakeLoop s dupId tgtId rest).1 ∧
    (bakeLoop s dupId tgtId (i :: rest)).2.1
      = Report.rwarning ("Blendshape " ++ (s.bs_shape_keys.getD i default).name
          ++ " not found, skipping.") :: (bakeLoop s dupId tgtId rest).2.1 ∧
    (bakeLoop s dupId tgtId (i :: rest)).2.2 = (bakeLoop s dupId tgtId rest).2.2 := by
  have hone := bakeOne_missing_key s dupId tgtId i h
  simp [bakeLoop, hone]

/-- Witness for C8 at a concrete input. -/
theorem bakeLoop_missing_key_skips_witness :
    (bakeLoop sGhost 0 1 [0]).1 = (bakeLoop sGhost 0 1 []).1 ∧
    (bakeLoop sGhost 0 1 [0]).2.1
      = Report.rwarning ("Blendshape " ++ (sGhost.bs_shape_keys.getD 0 default).name
          ++ " not found, skipping.") :: (bakeLoop sGhost 0 1 []).2.1 ∧
    (bakeLoop sGhost 0 1 [0]).2.2 = (bakeLoop sGhost 0 1 []).2.2 :=
  bakeLoop_missing_key_skips sGhost 0 1 0 [] rfl

/-- The repopulation loop appends exactly one item per source key, named
after it, and completes without raising, provided the target pointer
resolves to an object with shape keys and so does the source pointer. -/
theorem ublLoop_names (saved : Blob) (keys : List ShapeKey) :
    ∀ s : Scene,
      ((s.bs_target.bind (getObj s)).bind (fun o => o.shape_keys)).isSome = true →
      ((s.bs_source.bind (getObj s)).bind (fun o => o.shape_keys)).isSome = true →
      (ublLoop saved keys s).2 = true ∧
      (ublLoop saved keys s).1.bs_shape_keys.map BlendshapeItem.name
        = s.bs_shape_keys.map BlendshapeItem.name ++ keys.map ShapeKey.name := by
  induction keys with
  | nil =>
    intro s ht hs
    exact ⟨rfl, by simp [ublLoop]⟩
  | cons key rest ih =>
    intro s ht hs
    cases hbt : s.bs_target.bind (getObj s) with
    | none => rw [hbt] at ht; simp at ht
    | some tgt =>
      cases hsk : tgt.shape_keys with
      | none =>
        rw [hbt] at ht
        simp only [Option.some_bind] at ht
        rw [hsk] at ht
        simp at ht
      | some tks =>
        cases hd : dictFind saved key.name with
        | none =>
          have hstep : ublLoop saved (key :: rest) s
              = ublLoop saved rest { s with bs_shape_keys := s.bs_shape_keys
                  ++ [{ name := key.name, select := false, sync_value := 0,
                        target_key_name := "", source_key_name := "" }] } := by
            simp only [ublLoop, hd]
          rw [hstep]
          rcases ih { s with bs_shape_keys := s.bs_shape_keys
              ++ [{ name := key.name, select := false, sync_value := 0,
                    target_key_name := "", source_key_name := "" }] } ht hs with ⟨ih1, ih2⟩
          refine ⟨ih1, ?_⟩
          rw [ih2]
          simp
        | some sv =>
          by_cases hhk : hasKey tks key.name
          · set item1 : BlendshapeItem :=
              { name := key.name, select := sv.select, sync_value := 0,
                target_key_name := sv.target_key_name,
                source_key_name := sv.source_key_name } with hitem
            have hok : (assign_sync_value s item1 sv.sync_value).2.2 = true := by
              unfold assign_sync_value
              apply usv_ok
              · intro o ho
                rw [hbt] at ho
                rw [← Option.some_inj.mp ho, hsk]
                rfl
              · exact hs
            have hstep : ublLoop saved (key :: rest) s
                = ublLoop saved rest
                    { (assign_sync_value s item1 sv.sync_value).2.1 with
                      bs_shape_keys :=
                        (assign_sync_value s item1 sv.sync_value).2.1.bs_shape_keys
                          ++ [(assign_sync_value s item1 sv.sync_value).1] } := by
              simp only [ublLoop, hd, hbt, hsk, if_pos hhk, hitem, hok, if_true]
            rw [hstep]
            have hg1 : (((update_sync_value s { item1 with
                sync_value := clamp01 sv.sync_value }).1.bs_target.bind
                  (getObj (update_sync_value s { item1 with
                    sync_value := clamp01 sv.sync_value }).1)).bind
                  (fun o => o.shape_keys)).isSome = true := by
              rw [usv_fst_bs_target, usv_ptr_isSome]
              exact ht
            have hg2 : (((update_sync_value s { item1 with
                sync_value := clamp01 sv.sync_value }).1.bs_source.bind
                  (getObj (update_sync_value s { item1 with
                    sync_value := clamp01 sv.sync_value }).1)).bind
                  (fun o => o.shape_keys)).isSome = true := by
              rw [usv_fst_bs_source, usv_ptr_isSome]
              exact hs
            rcases ih { (assign_sync_value s item1 sv.sync_value).2.1 with
                bs_shape_keys :=
                  (assign_sync_value s item1 sv.sync_value).2.1.bs_shape_keys
                    ++ [(assign_sync_value s item1 sv.sync_value).1] } hg1 hg2
              with ⟨ih1, ih2⟩
            refine ⟨ih1, ?_⟩
            rw [ih2]
            show ((update_sync_value s { item1 with
                sync_value := clamp01 sv.sync_value }).1.bs_shape_keys
                  ++ [{ item1 with sync_value := clamp01 sv.sync_value }]).map
                  BlendshapeItem.name ++ rest.map ShapeKey.name = _
            rw [usv_fst_bs_shape_keys]
            simp [hitem]
          · have hstep : ublLoop saved (key :: rest) s
                = ublLoop saved rest { s with bs_shape_keys := s.bs_shape_keys
                    ++ [{ name := key.name, select := sv.select, sync_value := 0,
                          target_key_name := "", source_key_name := "" }] } := by
              simp only [ublLoop, hd, hbt, hsk, if_neg hhk]
            rw [hstep]
            rcases ih { s with bs_shape_keys := s.bs_shape_keys
                ++ [{ name := key.name, select := sv.select, sync_value := 0,
                      target_key_name := "", source_key_name := "" }] } ht hs
              with ⟨ih1, ih2⟩
            refine ⟨ih1, ?_⟩
            rw [ih2]
            simp

@[simp] theorem getObj_fun_set_list (s : Scene) (l : List BlendshapeItem) :
    getObj { s with bs_shape_keys := l } = getObj s := rfl

@[simp] theorem getObj_fun_set_active (s : Scene) (a : Option Nat) :
    getObj { s with active := a } = getObj s := rfl

theorem getD_set_self {α : Type} [Inhabited α] (l : List α) (i : Nat) (a : α)
    (h : i < l.length) : (l.set i a).getD i default = a := by
  simp [List.getD, List.getElem?_set_self, h]

theorem getObjKeys_appendShapeKey_of {X : Scene} {j : Nat} {L : List ShapeKey}
    (n : String) (v : Rat) (h : getObjKeys X j = some L) :
    getObjKeys (appendShapeKey X j n v) j = some (L ++ [⟨n, v⟩]) := by
  unfold appendShapeKey
  have e : getObjKeys (modifyObj X j (fun o =>
      { o with shape_keys := some ((o.shape_keys.getD []) ++ [⟨n, v⟩]) })) j
      = (getObj X j).bind (fun o => some ((o.shape_keys.getD []) ++ [⟨n, v⟩])) := by
    apply getObjKeys_modifyObj_self
    intro o; rfl
  rw [e]
  unfold getObjKeys at h
  cases hg : getObj X j with
  | none => rw [hg] at h; simp at h
  | some o =>
    rw [hg] at h
    simp only [Option.some_bind] at h
    simp [h]

theorem getObjKeys_removeShapeKey_of {X : Scene} {j : Nat} {L : List ShapeKey}
    (n : String) (h : getObjKeys X j = some L) :
    getObjKeys (removeShapeKey X j n) j = some (removeKeyList L n) := by
  unfold removeShapeKey
  have e : getObjKeys (modifyObj X j (fun o =>
      { o with shape_keys := o.shape_keys.map (fun ks => removeKeyList ks n) })) j
      = (getObj X j).bind (fun o => o.shape_keys.map (fun ks => removeKeyList ks n)) := by
    apply getObjKeys_modifyObj_self
    intro o; rfl
  rw [e]
  unfold getObjKeys at h
  cases hg : getObj X j with
  | none => rw [hg] at h; simp at h
  | some o =>
    rw [hg] at h
    simp only [Option.some_bind] at h
    simp [h]

theorem getObjKeys_renameLastKey_of {X : Scene} {j : Nat} {L : List ShapeKey}
    {k : ShapeKey} (n : String) (h : getObjKeys X j = some (L ++ [k])) :
    getObjKeys (renameLastKey X j n) j = some (L ++ [{ k with name := n }]) := by
  unfold renameLastKey
  have e : getObjKeys (modifyObj X j (fun o =>
      { o with shape_keys := o.shape_keys.map (fun ks =>
          match ks.getLast? with
          | none => ks
          | some k => ks.dropLast ++ [{ k with name := n }]) })) j
      = (getObj X j).bind (fun o => o.shape_keys.map (fun ks =>
          match ks.getLast? with
          | none => ks
          | some k => ks.dropLast ++ [{ k with name := n }])) := by
    apply getObjKeys_modifyObj_self
    intro o; rfl
  rw [e]
  unfold getObjKeys at h
  cases hg : getObj X j with
  | none => rw [hg] at h; simp at h
  | some o =>
    rw [hg] at h
    simp only [Option.some_bind] at h
    simp only [Option.some_bind, h, Option.map_some', List.getLast?_concat,
      List.dropLast_concat]

@[simp] theorem setKeyValue_bs_target (s : Scene) (j : Nat) (n : String) (v : Rat) :
    (setKeyValue s j n v).bs_target = s.bs_target := rfl

@[simp] theorem setKeyValue_bs_source (s : Scene) (j : Nat) (n : String) (v : Rat) :
    (setKeyValue s j n v).bs_source = s.bs_source := rfl

@[simp] theorem setKeyValue_bs_shape_keys (s : Scene) (j : Nat) (n : String) (v : Rat) :
    (setKeyValue s j n v).bs_shape_keys = s.bs_shape_keys := rfl

@[simp] theorem setKeyValue_bs_override (s : Scene) (j : Nat) (n : String) (v : Rat) :
    (setKeyValue s j n v).bs_override_existing = s.bs_override_existing := rfl

@[simp] theorem setKeyValue_bs_key_suffix (s : Scene) (j : Nat) (n : String) (v : Rat) :
    (setKeyValue s j n v).bs_key_suffix = s.bs_key_suffix := rfl

@[simp] theorem appendShapeKey_bs_target (s : Scene) (j : Nat) (n : String) (v : Rat) :
    (appendShapeKey s j n v).bs_target = s.bs_target := rfl

@[simp] theorem appendShapeKey_bs_source (s : Scene) (j : Nat) (n : String) (v : Rat) :
    (appendShapeKey s j n v).bs_source = s.bs_source := rfl

@[simp] theorem appendShapeKey_bs_shape_keys (s : Scene) (j : Nat) (n : String) (v : Rat) :
    (appendShapeKey s j n v).bs_shape_keys = s.bs_shape_keys := rfl

@[simp] theorem renameLastKey_bs_target (s : Scene) (j : Nat) (n : String) :
    (renameLastKey s j n).bs_target = s.bs_target := rfl

@[simp] theorem renameLastKey_bs_source (s : Scene) (j : Nat) (n : String) :
    (renameLastKey s j n).bs_source = s.bs_source := rfl

@[simp] theorem renameLastKey_bs_shape_keys (s : Scene) (j : Nat) (n : String) :
    (renameLastKey s j n).bs_shape_keys = s.bs_shape_keys := rfl

@[simp] theorem removeShapeKey_bs_target (s : Scene) (j : Nat) (n : String) :
    (removeShapeKey s j n).bs_target = s.bs_target := rfl

@[simp] theorem removeShapeKey_bs_source (s : Scene) (j : Nat) (n : String) :
    (removeShapeKey s j n).bs_source = s.bs_source := rfl

@[simp] theorem removeShapeKey_bs_shape_keys (s : Scene) (j : Nat) (n : String) :
    (removeShapeKey s j n).bs_shape_keys = s.bs_shape_keys := rfl

@[simp] theorem removeShapeKey_bs_override (s : Scene) (j : Nat) (n : String) :
    (removeShapeKey s j n).bs_override_existing = s.bs_override_existing := rfl

theorem getObjKeys_appendShapeKey_ne {s : Scene} {j : Nat} {n : String} {v : Rat}
    {i : Nat} (hne : i ≠ j) :
    getObjKeys (appendShapeKey s j n v) i = getObjKeys s i := by
  unfold appendShapeKey
  apply getObjKeys_modifyObj_ne _ hne
  intro o; rfl

theorem getObjKeys_renameLastKey_ne {s : Scene} {j : Nat} {n : String}
    {i : Nat} (hne : i ≠ j) :
    getObjKeys (renameLastKey s j n) i = getObjKeys s i := by
  unfold renameLastKey
  apply getObjKeys_modifyObj_ne _ hne
  intro o; rfl

theorem getObjKeys_removeShapeKey_ne {s : Scene} {j : Nat} {n : String}
    {i : Nat} (hne : i ≠ j) :
    getObjKeys (removeShapeKey s j n) i = getObjKeys s i := by
  unfold removeShapeKey
  apply getObjKeys_modifyObj_ne _ hne
  intro o; rfl

theorem setItemSyncValue_eq (s : Scene) (i : Nat) (v : Rat) :
    setItemSyncValue s i v = update_sync_value
      { s with bs_shape_keys := s.bs_shape_keys.set i
                 ({ s.bs_shape_keys.getD i default with sync_value := clamp01 v }) }
      { s.bs_shape_keys.getD i default with sync_value := clamp01 v } := rfl

/-- The commit tail appends exactly one key, with the chosen fresh name,
to the target's key list; every pre-existing key is unchanged in place,
name and value. -/
theorem bakeCommit_keys (X : Scene) (dupId tgtId i : Nat)
    (origName newName skn : String) (sync : Rat) (L : List ShapeKey)
    (hXt : X.bs_target = some tgtId)
    (hbs : ∀ sid, X.bs_source = some sid → sid ≠ tgtId)
    (hne : dupId ≠ tgtId)
    (hi : i < X.bs_shape_keys.length)
    (hL : getObjKeys X tgtId = some L)
    (hfresh : ∀ k ∈ L, k.name ≠ newName) :
    ∃ v, getObjKeys (bakeCommit X dupId tgtId i origName newName skn sync).1 tgtId
        = some (L ++ [⟨newName, v⟩]) := by
  have h2 := getObjKeys_appendShapeKey_of "Surface Deform" (0 : Rat) hL
  have h3 := getObjKeys_renameLastKey_of (X := appendShapeKey X tgtId "Surface Deform" 0)
    (j := tgtId) (L := L) (k := ⟨"Surface Deform", 0⟩) newName h2
  set s3 := renameLastKey (appendShapeKey X tgtId "Surface Deform" 0) tgtId newName
    with hs3
  set item4 := { s3.bs_shape_keys.getD i default with target_key_name := newName }
    with hitem4
  set s4 : Scene := { s3 with bs_shape_keys := s3.bs_shape_keys.set i item4 } with hs4
  set item5 := { s4.bs_shape_keys.getD i default with source_key_name := skn }
    with hitem5
  set s5 : Scene := { s4 with bs_shape_keys := s4.bs_shape_keys.set i item5 } with hs5
  have hgoal : bakeCommit X dupId tgtId i origName newName skn sync
      = (if (setItemSyncValue s5 i sync).2
         then (setKeyValue (setItemSyncValue s5 i sync).1 dupId origName 0, true)
         else ((setItemSyncValue s5 i sync).1, false)) := by
    rw [hs5, hs4, hitem5, hitem4, hs3]
    rfl
  have hlen3 : s3.bs_shape_keys = X.bs_shape_keys := by
    rw [hs3]
    simp
  have hlen4 : s4.bs_shape_keys.length = X.bs_shape_keys.length := by
    rw [hs4]
    simp [hlen3]
  have h5keys : getObjKeys s5 tgtId = some (L ++ [⟨newName, 0⟩]) := by
    rw [hs5, hs4]
    simpa using h3
  have htb5 : s5.bs_target = some tgtId := by
    rw [hs5, hs4, hs3]
    simpa using hXt
  have hsb5 : s5.bs_source = X.bs_source := by
    rw [hs5, hs4, hs3]
    simp
  have hitem5tkn : (s5.bs_shape_keys.getD i default).target_key_name = newName := by
    rw [hs5]
    show ((s4.bs_shape_keys.set i item5).getD i default).target_key_name = newName
    rw [getD_set_self _ _ _ (by rw [hlen4]; exact hi), hitem5]
    show (s4.bs_shape_keys.getD i default).target_key_name = newName
    rw [hs4]
    show ((s3.bs_shape_keys.set i item4).getD i default).target_key_name = newName
    rw [getD_set_self _ _ _ (by rw [hlen3]; exact hi), hitem4]
  set item6 : BlendshapeItem :=
    { s5.bs_shape_keys.getD i default with sync_value := clamp01 sync } with hitem6
  set s6 : Scene :=
    { s5 with bs_shape_keys := s5.bs_shape_keys.set i item6 } with hs6
  have hred : setItemSyncValue s5 i sync = update_sync_value s6 item6 := by
    rw [hs6, hitem6]
    exact setItemSyncValue_eq s5 i sync
  have htb6 : s6.bs_target = some tgtId := by
    rw [hs6]
    simpa using htb5
  have hsb6 : s6.bs_source = X.bs_source := by
    rw [hs6]
    simpa using hsb5
  have hk6 : getObjKeys s6 tgtId = some (L ++ [⟨newName, 0⟩]) := by
    rw [hs6]
    simpa using h5keys
  have hg6 : getObj s6 = getObj s5 := by
    rw [hs6]
    rfl
  have htkn6 : item6.target_key_name = newName := by
    rw [hitem6]
    exact hitem5tkn
  rw [hgoal, hred]
  rcases usv_cases s6 item6 with hnc | ⟨tgt', tks', src', sks', g1, g2, g3, g4, g5, g6, hw⟩
  · refine ⟨0, ?_⟩
    by_cases hr2 : (update_sync_value s6 item6).2 = true
    · simp only [hr2, if_true]
      rw [getObjKeys_setKeyValue_ne (Ne.symm hne), hnc]
      exact hk6
    · simp only [hr2]
      simp only [Bool.false_eq_true, if_false]
      rw [hnc]
      exact hk6
  · have htgtid : tgt'.id = tgtId := by
      rw [htb6] at g1
      simp only [Option.some_bind] at g1
      exact getObj_id g1
    have hsrcne : src'.id ≠ tgtId := by
      rw [hsb6] at g4
      cases hbx : X.bs_source with
      | none => rw [hbx] at g4; simp at g4
      | some sid =>
        rw [hbx] at g4
        simp only [Option.some_bind] at g4
        rw [getObj_id g4]
        exact hbs sid hbx
    have e1 : ∀ t : Scene, getObjKeys (modifyObj t tgt'.id (fun o =>
        { o with active_shape_key_index :=
            findKeyIndex tks' item6.target_key_name })) tgtId
        = getObjKeys t tgtId := by
      intro t
      apply getObjKeys_modifyObj_keepKeys
      · intro o; rfl
      · intro o; rfl
    have hkeysw : getObjKeys (update_sync_value s6 item6).1 tgtId
        = some (L ++ [⟨newName, item6.sync_value⟩]) := by
      rw [hw, e1, getObjKeys_setKeyValue_ne (Ne.symm hsrcne), htgtid,
          getObjKeys_setKeyValue_self, hk6, htkn6]
      simp only [Option.map_some']
      rw [setKeyValueList_append_notmem _ _ _ _ hfresh]
    refine ⟨item6.sync_value, ?_⟩
    by_cases hr2 : (update_sync_value s6 item6).2 = true
    · simp only [hr2, if_true]
      rw [getObjKeys_setKeyValue_ne (Ne.symm hne)]
      exact hkeysw
    · simp only [hr2]
      simp only [Bool.false_eq_true, if_false]
      exact hkeysw

/-- C3.  One bake-loop iteration for a selected entry whose name `nm`
already exists among the target's shape keys (`tks`, with Blender's
unique key names).  With override-existing set, the same-named target
key is removed and the baked key takes its name: the target's key list
becomes `removeKeyList tks nm ++ [new]`, of the same length as before.
With override unset (and the suffixed name not colliding — the collision
avoidance the suffix exists for), the baked key is appended under
`nm ++ suffix`: the list becomes `tks ++ [new]`, one key longer, with
every pre-existing key — the same-named one included — unchanged in
place, name and value. -/
theorem bakeOne_override_replaces_or_suffix_appends
    (s : Scene) (dupId tgtId i : Nat) (tgt : Obj) (tks : List ShapeKey)
    (kb : ShapeKey) (nm : String)
    (hnm : nm = (s.bs_shape_keys.getD i default).name)
    (hi : i < s.bs_shape_keys.length)
    (htgt : getObj s tgtId = some tgt)
    (hks : tgt.shape_keys = some tks)
    (hnd : (tks.map ShapeKey.name).Nodup)
    (hne : dupId ≠ tgtId)
    (hbt : s.bs_target = some tgtId)
    (hbs : ∀ sid, s.bs_source = some sid → sid ≠ tgtId)
    (hkb : (getObjKeys s dupId).bind (fun ks => keyLookup ks nm) = some kb)
    (hmem : hasKey tks nm = true) :
    (s.bs_override_existing = true →
      ∃ v, getObjKeys (bakeOne s dupId tgtId i).1 tgtId
          = some (removeKeyList tks nm ++ [⟨nm, v⟩]) ∧
        (removeKeyList tks nm ++ [(⟨nm, v⟩ : ShapeKey)]).length = tks.length)
    ∧ (s.bs_override_existing = false →
        hasKey tks (nm ++ s.bs_key_suffix) = false →
      ∃ v, getObjKeys (bakeOne s dupId tgtId i).1 tgtId
          = some (tks ++ [⟨nm ++ s.bs_key_suffix, v⟩]) ∧
        (tks ++ [(⟨nm ++ s.bs_key_suffix, v⟩ : ShapeKey)]).length = tks.length + 1) := by
  have hgot : getObjKeys s tgtId = some tks := by
    unfold getObjKeys
    rw [htgt]
    simpa using hks
  have hs1keys : getObjKeys (setKeyValue s dupId nm 1) tgtId = some tks := by
    rw [getObjKeys_setKeyValue_ne (Ne.symm hne)]
    exact hgot
  constructor
  · intro hov
    have hred1 : (bakeOne s dupId tgtId i).1
        = (bakeCommit (removeShapeKey (setKeyValue s dupId nm 1) tgtId nm)
            dupId tgtId i nm nm kb.name kb.value).1 := by
      simp only [bakeOne, ← hnm, hkb, hs1keys, Option.getD_some, hmem, if_true,
        setKeyValue_bs_override, hov]
      by_cases hc : (bakeCommit (removeShapeKey (setKeyValue s dupId nm 1) tgtId nm)
          dupId tgtId i nm nm kb.name kb.value).2 = true <;> simp [hc]
    rcases bakeCommit_keys (removeShapeKey (setKeyValue s dupId nm 1) tgtId nm)
        dupId tgtId i nm nm kb.name kb.value (removeKeyList tks nm)
        (by simpa using hbt)
        (by simpa using hbs)
        hne
        (by simpa using hi)
        (getObjKeys_removeShapeKey_of nm hs1keys)
        (removeKeyList_notmem tks nm hnd)
      with ⟨v, hv⟩
    refine ⟨v, ?_, ?_⟩
    · rw [hred1]
      exact hv
    · rw [List.length_append]
      simpa using removeKeyList_length tks nm hmem
  · intro hov hsuf
    have hred1 : (bakeOne s dupId tgtId i).1
        = (bakeCommit (setKeyValue s dupId nm 1)
            dupId tgtId i nm (nm ++ s.bs_key_suffix) kb.name kb.value).1 := by
      simp only [bakeOne, ← hnm, hkb, hs1keys, Option.getD_some, hmem, if_true,
        setKeyValue_bs_override, hov, setKeyValue_bs_key_suffix]
      by_cases hc : (bakeCommit (setKeyValue s dupId nm 1)
          dupId tgtId i nm (nm ++ s.bs_key_suffix) kb.name kb.value).2 = true <;>
        simp [hc]
    rcases bakeCommit_keys (setKeyValue s dupId nm 1)
        dupId tgtId i nm (nm ++ s.bs_key_suffix) kb.name kb.value tks
        (by simpa using hbt)
        (by simpa using hbs)
        hne
        (by simpa using hi)
        hs1keys
        (hasKey_false_forall tks _ hsuf)
      with ⟨v, hv⟩
    refine ⟨v, ?_, ?_⟩
    · rw [hred1]
      exact hv
    · simp

/-- Witness for C3 at a concrete input: with override set and `KeyA`
already on the target, the bake replaces it, leaving the key count
unchanged. -/
theorem bakeOne_override_replaces_witness :
    ∃ v, getObjKeys (bakeOne sOverride 0 1 0).1 1
        = some (removeKeyList [⟨"Basis", 0⟩, ⟨"KeyA", 0⟩] "KeyA" ++ [⟨"KeyA", v⟩]) ∧
      (removeKeyList [⟨"Basis", 0⟩, ⟨"KeyA", 0⟩] "KeyA"
          ++ [(⟨"KeyA", v⟩ : ShapeKey)]).length
        = ([⟨"Basis", 0⟩, ⟨"KeyA", 0⟩] : List ShapeKey).length :=
  (bakeOne_override_replaces_or_suffix_appends sOverride 0 1 0 oTgtHasA
      [⟨"Basis", 0⟩, ⟨"KeyA", 0⟩] ⟨"KeyA", 1⟩ "KeyA" rfl (by decide) rfl rfl
      (by decide) (by decide) rfl
      (fun sid h => by
        have h0 : (0 : Nat) = sid := Option.some_inj.mp h
        omega) rfl rfl).1 rfl

/-- C7 counterexample.  The claim asserts that with a configured target,
a source with N shape keys always yields exactly N list entries.  On
`sTgtNoKeys` the target is configured (set and resolving) but has no
shape keys, the source has 2 keys, and the synchronizer raises at the
unguarded `scene.bs_target.data.shape_keys.key_blocks` access while a
saved entry is being restored, leaving only 1 entry. -/
theorem update_blendshape_list_miscount_on_keyless_target :
    sTgtNoKeys.bs_target = some 1 ∧
    (getObj sTgtNoKeys 1).isSome = true ∧
    (getObjKeys sTgtNoKeys 0).map List.length = some 2 ∧
    (update_blendshape_list sTgtNoKeys).1.bs_shape_keys.length = 1 ∧
    (update_blendshape_list sTgtNoKeys).2 = false := by
  decide

/-- C7 amended.  For every source mesh with N shape keys and a configured
target that itself has shape keys, the synchronizer completes and
produces exactly N entries whose names equal the shape-key names in
source order; and with no source set it leaves the list empty. -/
theorem update_blendshape_list_names (s : Scene) :
    (∀ src keys tgt tks,
      s.bs_source.bind (getObj s) = some src → src.shape_keys = some keys →
      s.bs_target.bind (getObj s) = some tgt → tgt.shape_keys = some tks →
      (update_blendshape_list s).2 = true ∧
      (update_blendshape_list s).1.bs_shape_keys.map BlendshapeItem.name
        = keys.map ShapeKey.name)
    ∧ (s.bs_source = none →
      (update_blendshape_list s).1.bs_shape_keys = [] ∧
      (update_blendshape_list s).2 = true) := by
  constructor
  · intro src keys tgt tks h1 h2 h3 h4
    have hstep : update_blendshape_list s
        = ublLoop (savedOf s.bs_shape_keys) keys { s with bs_shape_keys := [] } := by
      simp only [update_blendshape_list, getObj_fun_set_list, h1, h2]
    have ht : ((s.bs_target.bind (getObj s)).bind (fun o => o.shape_keys)).isSome
        = true := by
      rw [h3]
      simp [h4]
    have hsv : ((s.bs_source.bind (getObj s)).bind (fun o => o.shape_keys)).isSome
        = true := by
      rw [h1]
      simp [h2]
    rcases ublLoop_names (savedOf s.bs_shape_keys) keys
        { s with bs_shape_keys := [] } ht hsv with ⟨e1, e2⟩
    rw [hstep]
    refine ⟨e1, ?_⟩
    rw [e2]
    simp
  · intro h
    constructor <;> simp [update_blendshape_list, h]

/-- Witness for the amended C7 at a concrete input. -/
theorem update_blendshape_list_names_witness :
    (update_blendshape_list baseScene).2 = true ∧
    (update_blendshape_list baseScene).1.bs_shape_keys.map BlendshapeItem.name
      = ([⟨"KeyA", 1⟩, ⟨"KeyB", 0⟩] : List ShapeKey).map ShapeKey.name :=
  (update_blendshape_list_names baseScene).1 oSrc [⟨"KeyA", 1⟩, ⟨"KeyB", 0⟩]
    oTgt [⟨"Basis", 0⟩] rfl rfl rfl rfl

/-!  #### Modifier-list preservation through the pipeline stages  -/

theorem modsOf_appendShapeKey (s : Scene) (j : Nat) (n : String) (v : Rat) (i : Nat) :
    modsOf (appendShapeKey s j n v) i = modsOf s i := by
  unfold appendShapeKey
  apply modsOf_modifyObj_keysOnly
  · intro o; rfl
  · intro o; rfl

theorem modsOf_renameLastKey (s : Scene) (j : Nat) (n : String) (i : Nat) :
    modsOf (renameLastKey s j n) i = modsOf s i := by
  unfold renameLastKey
  apply modsOf_modifyObj_keysOnly
  · intro o; rfl
  · intro o; rfl

theorem modsOf_setLastKeyValue (s : Scene) (j : Nat) (v : Rat) (i : Nat) :
    modsOf (setLastKeyValue s j v) i = modsOf s i := by
  unfold setLastKeyValue
  apply modsOf_modifyObj_keysOnly
  · intro o; rfl
  · intro o; rfl

theorem modsOf_removeShapeKey (s : Scene) (j : Nat) (n : String) (i : Nat) :
    modsOf (removeShapeKey s j n) i = modsOf s i := by
  unfold removeShapeKey
  apply modsOf_modifyObj_keysOnly
  · intro o; rfl
  · intro o; rfl

theorem modsOf_zeroAllKeys (s : Scene) (j : Nat) (i : Nat) :
    modsOf (zeroAllKeys s j) i = modsOf s i := by
  unfold zeroAllKeys
  apply modsOf_modifyObj_keysOnly
  · intro o; rfl
  · intro o; rfl

theorem modsOf_restore_shape_key_states (s : Scene) (j : Nat)
    (states : List (String × Rat)) (i : Nat) :
    modsOf (restore_shape_key_states s j states) i = modsOf s i := by
  unfold restore_shape_key_states
  cases getObjKeys s j with
  | none => rfl
  | some ks =>
    apply modsOf_modifyObj_keysOnly
    · intro o; rfl
    · intro o; rfl

theorem modsOf_save_target (s : Scene) (i : Nat) :
    modsOf (save_target s) i = modsOf s i := by
  unfold save_target
  cases s.bs_target.bind (getObj s) with
  | none => rfl
  | some tgt =>
    apply modsOf_modifyObj_keysOnly
    · intro o; rfl
    · intro o; rfl

theorem modsOf_ensure_mask (s : Scene) (j : Nat) (i : Nat) :
    modsOf (ensure_transfer_mask_vertex_group s j).2 i = modsOf s i := by
  unfold ensure_transfer_mask_vertex_group
  cases getObj s j with
  | none => rfl
  | some tgt =>
    by_cases h : tgt.vertex_groups.contains "BlendshapeTransferMask"
    · simp only [h, if_true]
    · simp only [h]
      simp only [Bool.false_eq_true, if_false]
      apply modsOf_modifyObj_keysOnly
      · intro o; rfl
      · intro o; rfl

theorem modsOf_save_and_reset (s : Scene) (j : Nat) (i : Nat) :
    modsOf (save_and_reset_shape_key_states s j).2 i = modsOf s i := by
  unfold save_and_reset_shape_key_states
  cases getObjKeys s j with
  | none => rfl
  | some ks =>
    apply modsOf_modifyObj_keysOnly
    · intro o; rfl
    · intro o; rfl

theorem modsOf_setItemSyncValue (s : Scene) (j : Nat) (v : Rat) (i : Nat) :
    modsOf (setItemSyncValue s j v).1 i = modsOf s i := by
  unfold setItemSyncValue
  rw [usv_modsOf]
  rfl

theorem modsOf_addModifier_ne {s : Scene} {j : Nat} {n t : String} {i : Nat}
    (hne : i ≠ j) : modsOf (addModifier s j n t) i = modsOf s i := by
  unfold addModifier
  have e : getObj (modifyObj s j (fun o =>
      { o with modifiers := o.modifiers ++ [⟨n, t⟩] })) i = getObj s i := by
    apply getObj_modifyObj_ne _ hne
    intro o; rfl
  unfold modsOf
  rw [e]

theorem modsOf_addModifier_self (s : Scene) (j : Nat) (n t : String) :
    modsOf (addModifier s j n t) j
      = (modsOf s j).map (fun ms => ms ++ [⟨n, t⟩]) := by
  unfold addModifier
  have e : getObj (modifyObj s j (fun o =>
      { o with modifiers := o.modifiers ++ [⟨n, t⟩] })) j
      = (getObj s j).map (fun o => { o with modifiers := o.modifiers ++ [⟨n, t⟩] }) := by
    apply getObj_modifyObj_self
    intro o; rfl
  unfold modsOf
  rw [e]
  cases getObj s j <;> rfl

theorem modsOf_removeModifierByName_ne {s : Scene} {j : Nat} {n : String} {i : Nat}
    (hne : i ≠ j) : modsOf (removeModifierByName s j n) i = modsOf s i := by
  unfold removeModifierByName
  have e : getObj (modifyObj s j (fun o =>
      { o with modifiers := removeFirstMod o.modifiers n })) i = getObj s i := by
    apply getObj_modifyObj_ne _ hne
    intro o; rfl
  unfold modsOf
  rw [e]

theorem modsOf_removeModifierByName_self (s : Scene) (j : Nat) (n : String) :
    modsOf (removeModifierByName s j n) j
      = (modsOf s j).map (fun ms => removeFirstMod ms n) := by
  unfold removeModifierByName
  have e : getObj (modifyObj s j (fun o =>
      { o with modifiers := removeFirstMod o.modifiers n })) j
      = (getObj s j).map (fun o => { o with modifiers := removeFirstMod o.modifiers n }) := by
    apply getObj_modifyObj_self
    intro o; rfl
  unfold modsOf
  rw [e]
  cases getObj s j <;> rfl

theorem getObj_deselectAll (s : Scene) (i : Nat) :
    getObj (deselectAll s) i
      = (getObj s i).map (fun o => { o with selected := false }) := by
  unfold getObj deselectAll
  rw [List.find?_map]
  rfl

theorem modsOf_deselectAll (s : Scene) (i : Nat) :
    modsOf (deselectAll s) i = modsOf s i := by
  unfold modsOf
  rw [getObj_deselectAll]
  cases getObj s i <;> rfl

theorem modsOf_setSelected (s : Scene) (j : Nat) (b : Bool) (i : Nat) :
    modsOf (setSelected s j b) i = modsOf s i := by
  unfold setSelected
  apply modsOf_modifyObj_keysOnly
  · intro o; rfl
  · intro o; rfl

theorem modsOf_bakeCommit (X : Scene) (dupId tgtId j : Nat)
    (origName newName skn : String) (sync : Rat) (i : Nat) :
    modsOf (bakeCommit X dupId tgtId j origName newName skn sync).1 i = modsOf X i := by
  unfold bakeCommit
  by_cases hr : (setItemSyncValue
      { renameLastKey (appendShapeKey X tgtId "Surface Deform" 0) tgtId newName with
        bs_shape_keys := ((renameLastKey (appendShapeKey X tgtId "Surface Deform" 0)
            tgtId newName).bs_shape_keys.set j
          ({ (renameLastKey (appendShapeKey X tgtId "Surface Deform" 0)
              tgtId newName).bs_shape_keys.getD j default with
             target_key_name := newName })).set j
          ({ (((renameLastKey (appendShapeKey X tgtId "Surface Deform" 0)
                tgtId newName).bs_shape_keys.set j
              ({ (renameLastKey (appendShapeKey X tgtId "Surface Deform" 0)
                  tgtId newName).bs_shape_keys.getD j default with
                 target_key_name := newName })).getD j default) with
             source_key_name := skn }) } j sync).2 = true
  · simp only [hr, if_true]
    rw [show ∀ t : Scene, modsOf (setKeyValue t dupId origName 0) i = modsOf t i
        from fun t => modsOf_setKeyValue t dupId origName 0 i]
    rw [modsOf_setItemSyncValue]
    show modsOf (renameLastKey (appendShapeKey X tgtId "Surface Deform" 0) tgtId newName) i
        = modsOf X i
    rw [modsOf_renameLastKey, modsOf_appendShapeKey]
  · simp only [hr]
    simp only [Bool.false_eq_true, if_false]
    rw [modsOf_setItemSyncValue]
    show modsOf (renameLastKey (appendShapeKey X tgtId "Surface Deform" 0) tgtId newName) i
        = modsOf X i
    rw [modsOf_renameLastKey, modsOf_appendShapeKey]

theorem modsOf_bakeOne (s : Scene) (dupId tgtId j : Nat) (i : Nat) :
    modsOf (bakeOne s dupId tgtId j).1 i = modsOf s i := by
  cases hkb : (getObjKeys s dupId).bind
      (fun ks => keyLookup ks (s.bs_shape_keys.getD j default).name) with
  | none => rw [bakeOne_missing_key s dupId tgtId j hkb]
  | some kb =>
    simp only [bakeOne, hkb]
    repeat' split
    all_goals simp only [modsOf_bakeCommit, modsOf_removeShapeKey, modsOf_setKeyValue]

theorem modsOf_bakeLoop (dupId tgtId : Nat) (idxs : List Nat) :
    ∀ (s : Scene) (i : Nat), modsOf (bakeLoop s dupId tgtId idxs).1 i = modsOf s i := by
  induction idxs with
  | nil => intro s i; rfl
  | cons j rest ih =>
    intro s i
    unfold bakeLoop
    by_cases hr : (bakeOne s dupId tgtId j).2.2 = true
    · simp only [hr, if_true]
      rw [ih, modsOf_bakeOne]
    · simp only [hr]
      simp only [Bool.false_eq_true, if_false]
      rw [modsOf_bakeOne]

theorem removeFirstMod_append_notmem (ms : List Modifier) (n t : String)
    (h : ∀ x ∈ ms, x.name ≠ n) :
    removeFirstMod (ms ++ [⟨n, t⟩]) n = ms := by
  induction ms with
  | nil => simp [removeFirstMod]
  | cons a rest ih =>
    have ha : a.name ≠ n := h a (List.mem_cons_self a rest)
    have hb : ¬ ((a.name == n) = true) := by simp [ha]
    simp only [List.cons_append, removeFirstMod, if_neg hb]
    exact congrArg (a :: ·) (ih (fun x hx => h x (List.mem_cons_of_mem a hx)))

theorem cleanupFind_self (l : List Obj) (dupId : Nat) :
    (((l.map (fun o => { o with selected := false })).map
          (fun o => if o.id == dupId then { o with selected := true } else o)).filter
        (fun o => !o.selected)).find? (fun o => o.id == dupId) = none := by
  induction l with
  | nil => rfl
  | cons a rest ih =>
    by_cases h : a.id = dupId
    · simp only [List.map_cons, List.filter_cons, h, beq_self_eq_true, if_true,
        Bool.not_true, Bool.false_eq_true, if_false]
      exact ih
    · have hb : (a.id == dupId) = false := by simp [h]
      simp only [List.map_cons, List.filter_cons, hb, Bool.false_eq_true, if_false,
        Bool.not_false, eq_self_iff_true, if_true, ite_true]
      rw [List.find?_cons_of_neg _ (by simp [h])]
      exact ih

theorem cleanupFind_ne (l : List Obj) (dupId i : Nat) (hne : i ≠ dupId) :
    (((l.map (fun o => { o with selected := false })).map
          (fun o => if o.id == dupId then { o with selected := true } else o)).filter
        (fun o => !o.selected)).find? (fun o => o.id == i)
      = (l.find? (fun o => o.id == i)).map (fun o => { o with selected := false }) := by
  induction l with
  | nil => rfl
  | cons a rest ih =>
    by_cases h : a.id = dupId
    · have h2 : ¬ (a.id = i) := by
        intro hx
        rw [hx] at h
        exact hne h
      simp only [List.map_cons, List.filter_cons, h, beq_self_eq_true, if_true,
        Bool.not_true, Bool.false_eq_true, if_false]
      rw [List.find?_cons_of_neg _ (by simp [h2])]
      exact ih
    · have hb : (a.id == dupId) = false := by simp [h]
      by_cases h2 : a.id = i
      · simp only [List.map_cons, List.filter_cons, hb, Bool.false_eq_true, if_false,
          Bool.not_false, eq_self_iff_true, if_true, ite_true]
        rw [List.find?_cons_of_pos _ (by simp [h2]), List.find?_cons_of_pos _ (by simp [h2])]
        rfl
      · simp only [List.map_cons, List.filter_cons, hb, Bool.false_eq_true, if_false,
          Bool.not_false, eq_self_iff_true, if_true, ite_true]
        rw [List.find?_cons_of_neg _ (by simp [h2]), List.find?_cons_of_neg _ (by simp [h2])]
        exact ih

theorem getObj_cleanup_tail_self (X : Scene) (dupId : Nat) :
    getObj (deleteSelected
      { setSelected (deselectAll X) dupId true with active := some dupId }) dupId
      = none :=
  cleanupFind_self X.objects dupId

theorem modsOf_cleanup_tail_ne (X : Scene) (dupId i : Nat) (hne : i ≠ dupId) :
    modsOf (deleteSelected
      { setSelected (deselectAll X) dupId true with active := some dupId }) i
      = modsOf X i := by
  have e : getObj (deleteSelected
      { setSelected (deselectAll X) dupId true with active := some dupId }) i
      = (getObj X i).map (fun o => { o with selected := false }) :=
    cleanupFind_ne X.objects dupId i hne
  unfold modsOf
  rw [e]
  cases getObj X i <;> rfl

theorem getObj_cleanup_dup (s : Scene) (dupId tgtId : Nat)
    (a b : List (String × Rat)) :
    getObj (cleanup s dupId tgtId a b) dupId = none := by
  simp only [cleanup]
  exact getObj_cleanup_tail_self _ dupId

theorem modsOf_cleanup_tgt (s : Scene) (dupId tgtId : Nat)
    (a b : List (String × Rat)) (hne : tgtId ≠ dupId) :
    modsOf (cleanup s dupId tgtId a b) tgtId
      = (modsOf s tgtId).map (fun ms => removeFirstMod ms "Surface Deform") := by
  have hsub : ∀ W : Scene,
      modsOf (if W.bs_use_subdivision
        then removeModifierByName W dupId "Subdivision Temp" else W) tgtId
        = modsOf W tgtId := by
    intro W
    split
    · exact modsOf_removeModifierByName_ne hne
    · rfl
  have hdisp : ∀ W : Scene,
      modsOf (if W.bs_use_displace
        then removeShapeKey W dupId "Displace Temp" else W) tgtId
        = modsOf W tgtId := by
    intro W
    split
    · rw [modsOf_removeShapeKey]
    · rfl
  simp only [cleanup]
  rw [modsOf_cleanup_tail_ne _ _ _ hne]
  rw [modsOf_save_target, modsOf_removeModifierByName_self]
  rw [hdisp, hsub, modsOf_restore_shape_key_states, modsOf_restore_shape_key_states]

theorem modsOf_preprocess (s : Scene) (dupId tgtId i : Nat) (hne : i ≠ dupId) :
    modsOf (preprocess s dupId tgtId).2.2 i = modsOf s i := by
  have hsub : ∀ (c : Bool) (W : Scene),
      modsOf (if c = true
        then addModifier W dupId "Subdivision Temp" "SUBSURF" else W) i
        = modsOf W i := by
    intro c W
    split
    · exact modsOf_addModifier_ne hne
    · rfl
  have hdisp : ∀ (c : Bool) (W : Scene),
      modsOf (if c = true
        then removeModifierByName (setLastKeyValue (renameLastKey (appendShapeKey
          (addModifier W dupId "Displace Temp" "DISPLACE") dupId "Displace Temp" 0)
          dupId "Displace Temp") dupId 1) dupId "Displace Temp"
        else W) i = modsOf W i := by
    intro c W
    split
    · rw [modsOf_removeModifierByName_ne hne, modsOf_setLastKeyValue,
        modsOf_renameLastKey, modsOf_appendShapeKey, modsOf_addModifier_ne hne]
    · rfl
  have hact : ∀ W : Scene, modsOf { W with active := some dupId } i = modsOf W i :=
    fun W => rfl
  simp only [preprocess, ensure_surface_deform_compatibility]
  rw [hdisp, hsub, hact, modsOf_zeroAllKeys, modsOf_save_and_reset, modsOf_save_and_reset]

theorem modsOf_bindTarget (s : Scene) (tgtId : Nat) :
    modsOf (bindTarget s tgtId) tgtId
      = (modsOf s tgtId).map
          (fun ms => ms ++ [⟨"Surface Deform", "SURFACE_DEFORM"⟩]) := by
  have hact : ∀ W : Scene, modsOf { W with active := some tgtId } tgtId = modsOf W tgtId :=
    fun W => rfl
  simp only [bindTarget]
  rw [hact, modsOf_addModifier_self, modsOf_ensure_mask]
  congr 1
  split
  · rw [modsOf_appendShapeKey]
  · rfl

/-- C2.  A completed run of the transfer operator (status `finished`, which
covers the per-item-warning path) leaves no trace of its temporaries: the
ephemeral duplicate (the object created under the fresh id `s0.next_id`)
no longer resolves in the scene, and the target's modifier list is exactly
what it was before the run — in particular, under the stated hypothesis
that the target carried no "Surface Deform" modifier beforehand (Blender
modifier names are unique per object), none is present afterwards. -/
theorem transfer_cleanup_removes_temporaries (s0 : Scene) (tgtId : Nat) (tgt : Obj)
    (htgt : s0.bs_target = some tgtId)
    (hobj : getObj s0 tgtId = some tgt)
    (hfresh : ∀ o ∈ s0.objects, o.id < s0.next_id)
    (hnosd : ∀ m ∈ tgt.modifiers, m.name ≠ "Surface Deform")
    (hfin : (execute s0).status = OpStatus.finished) :
    getObj (execute s0).scene s0.next_id = none ∧
    ∃ ms, modsOf (execute s0).scene tgtId = some ms ∧
      ms = tgt.modifiers ∧ ∀ m ∈ ms, m.name ≠ "Surface Deform" := by
  have hmem : tgt ∈ s0.objects := List.mem_of_find?_eq_some hobj
  have hid : tgt.id = tgtId := getObj_id hobj
  have hne : tgtId ≠ s0.next_id := by
    have hlt := hfresh tgt hmem
    rw [hid] at hlt
    omega
  have hms : ∀ (d : Obj) (tg : Option Nat),
      modsOf { s0 with
          objects := s0.objects ++ [d]
          next_id := s0.next_id + 1
          bs_target := tg } tgtId
        = some tgt.modifiers := by
    intro d tg
    show ((s0.objects ++ [d]).find? (fun o => o.id == tgtId)).map (fun o => o.modifiers)
        = some tgt.modifiers
    rw [List.find?_append]
    have hfind : s0.objects.find? (fun o => o.id == tgtId) = some tgt := hobj
    rw [hfind]
    rfl
  cases hsrc : s0.bs_source.bind (getObj s0) with
  | none => simp [execute, hsrc] at hfin
  | some origSrc =>
    simp only [execute, hsrc] at hfin ⊢
    simp only [htgt] at hfin ⊢
    cases hsk : origSrc.shape_keys with
    | none => simp [hsk] at hfin
    | some ks =>
      simp only [hsk] at hfin ⊢
      by_cases hsel : (selectedIdxs s0.bs_shape_keys).isEmpty = true
      · rw [if_pos hsel] at hfin
        simp at hfin
      · rw [if_neg hsel] at hfin ⊢
        split at hfin
        next hok =>
          rw [if_pos hok]
          dsimp only
          refine ⟨getObj_cleanup_dup _ _ _ _ _, ?_⟩
          rw [modsOf_cleanup_tgt _ _ _ _ _ hne, modsOf_bakeLoop, modsOf_bindTarget,
            modsOf_preprocess _ _ _ _ hne, hms _ _]
          simp only [Option.map_some']
          refine ⟨tgt.modifiers, ?_, rfl, hnosd⟩
          rw [removeFirstMod_append_notmem _ _ _ hnosd]
        next hok =>
          simp at hfin

/-- Witness for C2 at a concrete input: the full run on `baseScene`
finishes, the fresh duplicate id resolves to nothing afterwards, and the
target keeps its (empty, surface-deform-free) modifier list. -/
theorem transfer_cleanup_removes_temporaries_witness :
    getObj (execute baseScene).scene baseScene.next_id = none ∧
    ∃ ms, modsOf (execute baseScene).scene 1 = some ms ∧
      ms = oTgt.modifiers ∧ ∀ m ∈ ms, m.name ≠ "Surface Deform" :=
  transfer_cleanup_removes_temporaries baseScene 1 oTgt (by rfl) (by rfl)
    (by decide) (by simp [oTgt]) (by decide)


/-- C1.  The claim says a validation failure reports an error and returns
cancelled "with no mutation of the scene state (no object created or
linked...)".  Evaluating `execute` on a scene with nothing selected shows
the operator does cancel with an error report, but only after a duplicate
of the source has been created and linked (object count grows from 2 to 3
and the fresh id resolves), because the copy happens before validation
(src lines 352-354).  With the source unset the operator does not even
cancel: `scene.bs_source.copy()` raises `AttributeError`. -/
theorem execute_validation_mutates_scene :
    (execute sNoSelection).status = OpStatus.cancelled ∧
    (execute sNoSelection).reports = [Report.rerror "No blendshapes selected!"] ∧
    sNoSelection.objects.length = 2 ∧
    (execute sNoSelection).scene.objects.length = 3 ∧
    (getObj (execute sNoSelection).scene sNoSelection.next_id).isSome = true ∧
    (execute sNoSource).status = OpStatus.raised := by
  decide

/-- C4.  The claim says running the synchronizer twice with no mesh change
is a no-op on list contents.  On a scene whose source has two shape keys
and whose target is unset, the first run succeeds and yields both entries,
but the second run hits the unguarded
`key.name in scene.bs_target.data.shape_keys.key_blocks` dereference
(src line 45), raises, and leaves a partially rebuilt one-entry list. -/
theorem update_blendshape_list_not_idempotent :
    (update_blendshape_list sTargetUnset).2 = true ∧
    (update_blendshape_list sTargetUnset).1.bs_shape_keys.map BlendshapeItem.name
      = ["KeyA", "KeyB"] ∧
    (update_blendshape_list (update_blendshape_list sTargetUnset).1).2 = false ∧
    (update_blendshape_list
        (update_blendshape_list sTargetUnset).1).1.bs_shape_keys.map BlendshapeItem.name
      = ["KeyA"] := by
  decide

/-- C5.  The claim says entries absent from the blob or from the target's
shape keys are reset to "a deterministic zero sync value".  Evaluating
`load_target` on a target whose blob mentions only `KeyB` (absent from the
target's keys) shows both reset entries end with nonzero sync values:
`KeyB` (in the blob, missing from the target) receives its own source
key's activation 1 (src line 96), and `KeyA` (missing from the blob, own
activation 0) receives 1 as well — the value of the LAST source key,
through the loop variable leaked into the second reset loop (src line
105). -/
theorem load_target_reset_sync_not_zero :
    (load_target sLoad).2 = true ∧
    (load_target sLoad).1.bs_shape_keys =
      [{ name := "KeyA", select := false, sync_value := 1,
         target_key_name := "", source_key_name := "" },
       { name := "KeyB", select := false, sync_value := 1,
         target_key_name := "", source_key_name := "" }] := by
  decide

/-- C6.  The claim says every shape-key activation value on the original
source after the run equals its value before the run.  Evaluating
`execute` on `baseScene` (original source `KeyA` at 1, `KeyA` selected)
shows the run finishes and leaves the original source's `KeyA` at 0: the
assignment `shape.sync_value = sync_value` (src line 458) fires
`update_sync_value`, which writes the recorded value — 0, since the
duplicate's keys were zeroed — into `scene.bs_source`'s key (src line
185), and nothing restores the original (only the duplicate's states are
restored, src line 463). -/
theorem execute_zeroes_original_source_key :
    (execute baseScene).status = OpStatus.finished ∧
    keyValueOf baseScene 0 "KeyA" = some 1 ∧
    keyValueOf (execute baseScene).scene 0 "KeyA" = some 0 := by
  decide

end RBT
